import Mathlib

/-!
Verification development for the TikTok hashtag scraper (`scraper_2.py`).

The Python source is shallowly embedded: the browser/page-automation runtime
(Playwright) is modelled as explicit data describing what each page query
returns; `async` sequencing is ordinary sequential evaluation; Python dicts of
dynamic JSON data are modelled by the `PyVal` tree; Python exceptions that the
source catches are modelled with `Option`.  `while` loops are embedded with an
explicit fuel parameter (`Option.none` = fuel exhausted, an embedding artifact;
termination theorems exhibit sufficient fuel).

Modelling conventions, noted once here:
* strings are ASCII-modelled: `str.upper`/`str.lower`/`str.strip` and the
  regex `\d` are embedded for the ASCII fragment;
* Python floats are embedded as IEEE-754 binary64 values (`PyFloat`):
  `float()` parses the literal into an exact scaled decimal (`DecScaled`) and
  rounds it to the nearest double (ties to even, overflow to `inf`,
  underflow through subnormals to zero), multiplication rounds the exact
  product the same way, and `int()` truncates toward zero, raising on `inf`;
  the textual `inf`/`nan` literals themselves are modelled as parse failures,
  which is observationally equal inside `_parse_count` (both end in the
  `except: 0`);
* `PyVal.vdict` association lists are assumed to have unique keys (as produced
  by `json.loads`).
-/

set_option autoImplicit false
set_option maxRecDepth 8000

/-- A Python/JSON value, as produced by `json.loads` in the source. -/
inductive PyVal where
  | vnone : PyVal
  | vbool : Bool → PyVal
  | vint : Int → PyVal
  | vstr : String → PyVal
  | vlist : List PyVal → PyVal
  | vdict : List (String × PyVal) → PyVal

/- Python `repr`, as used by `str()` on lists and dicts (string escaping in
`repr` is not modelled; the scraper only interpolates scalar ids). -/
mutual
def pyRepr : PyVal → String
  | PyVal.vnone => "None"
  | PyVal.vbool true => "True"
  | PyVal.vbool false => "False"
  | PyVal.vint n => toString n
  | PyVal.vstr s => "'" ++ s ++ "'"
  | PyVal.vlist xs => "[" ++ pyReprItems xs ++ "]"
  | PyVal.vdict kvs => "\x7b" ++ pyReprPairs kvs ++ "\x7d"

def pyReprItems : List PyVal → String
  | [] => ""
  | [x] => pyRepr x
  | x :: y :: rest => pyRepr x ++ ", " ++ pyReprItems (y :: rest)

def pyReprPairs : List (String × PyVal) → String
  | [] => ""
  | [(k, v)] => "'" ++ k ++ "': " ++ pyRepr v
  | (k, v) :: p :: rest => "'" ++ k ++ "': " ++ pyRepr v ++ ", " ++ pyReprPairs (p :: rest)
end

/-- Python `str()` (used by f-string interpolation in `_parse_video_item`). -/
def pyStr : PyVal → String
  | PyVal.vstr s => s
  | v => pyRepr v

/-- `d.get(k, default)` on a Python dict. -/
def kvsGet (kvs : List (String × PyVal)) (k : String) (d : PyVal) : PyVal :=
  match kvs.lookup k with
  | some v => v
  | Option.none => d

/-- Python `c in s` for a single character. -/
def hasChar (cs : List Char) (k : Char) : Bool :=
  cs.any (fun c => c == k)

/-- Does the list start with the given pattern of characters? -/
def startsWithChars : List Char → List Char → Bool
  | [], _ => true
  | _ :: _, [] => false
  | p :: ps, c :: cs => p == c && startsWithChars ps cs

/-- Python `needle in hay` substring test (used on scope keys). -/
def hasSubstr (needle : List Char) : List Char → Bool
  | [] => needle.isEmpty
  | c :: rest => startsWithChars needle (c :: rest) || hasSubstr needle rest

/-- The characters `str.strip()` removes. -/
def pyIsSpace (c : Char) : Bool :=
  c == ' ' || c == '\t' || c == '\n' || c == '\r' || c == '\x0b' || c == '\x0c'

/-- Python `str.strip()` on a character list. -/
def stripChars (cs : List Char) : List Char :=
  ((cs.dropWhile pyIsSpace).reverse.dropWhile pyIsSpace).reverse

/-- Python `str.strip()`. -/
def pyStripS (s : String) : String := String.mk (stripChars s.data)

/-- Python `str.upper()` for one ASCII character. -/
def pyUpper (c : Char) : Char :=
  if 97 ≤ c.toNat && c.toNat ≤ 122 then Char.ofNat (c.toNat - 32) else c

/-- Python `s.lstrip('#')`. -/
def pyLstripHash (s : String) : String :=
  String.mk (s.data.dropWhile (fun c => c == '#'))

/-! ## CountParser (`_parse_count`, lines 636-647)

`float()` first parses the literal into an exact scaled decimal
`num / 10 ^ den10`, which is then rounded to IEEE-754 binary64. -/

/-- An exact scaled-decimal value `num / 10 ^ den10`. -/
structure DecScaled where
  num : Int
  den10 : Nat
deriving DecidableEq

/-- A character allowed inside a Python numeric digit run
(digits plus `_` separators). -/
def isRunChar (c : Char) : Bool := c.isDigit || c == '_'

/-- Validity of the tail of a digit run: every `_` is followed by a digit. -/
def underscoreTail : List Char → Bool
  | [] => true
  | c :: rest =>
    if c == '_' then
      match rest with
      | [] => false
      | d :: rest2 => d.isDigit && underscoreTail rest2
    else c.isDigit && underscoreTail rest

/-- Validity of a whole (non-empty) digit run. -/
def underscoreRunOk : List Char → Bool
  | [] => false
  | c :: rest => c.isDigit && underscoreTail rest

/-- Drop the `_` separators of a digit run. -/
def stripUnderscores (cs : List Char) : List Char :=
  cs.filter (fun c => !(c == '_'))

/-- The numeric value of a list of ASCII digits. -/
def digitsToNat (ds : List Char) : Nat :=
  ds.foldl (fun a c => 10 * a + (c.toNat - 48)) 0

/-- Split a leading `+`/`-` sign off a numeric literal. -/
def splitSign (cs : List Char) : Int × List Char :=
  match cs with
  | [] => (1, [])
  | c :: rest =>
    if c == '-' then (-1, rest)
    else if c == '+' then (1, rest)
    else (1, c :: rest)

/-- Parse the exponent part of a float literal: empty means exponent 0,
otherwise `E` followed by an optionally signed digit run consuming the rest. -/
def parseExpPart : List Char → Option Int
  | [] => some 0
  | c :: rest =>
    if c == 'E' then
      match splitSign rest with
      | (sg, r2) =>
        if (r2.dropWhile isRunChar).isEmpty && !(r2.takeWhile isRunChar).isEmpty
            && underscoreRunOk (r2.takeWhile isRunChar) then
          some (sg * ((digitsToNat (stripUnderscores (r2.takeWhile isRunChar)) : Nat) : Int))
        else Option.none
    else Option.none

/-- Combine integer part, fraction part and exponent into a scaled decimal. -/
def decParts (ipart fpart : List Char) (e : Int) : DecScaled :=
  if 0 ≤ e - (fpart.length : Int) then
    { num := ((digitsToNat (ipart ++ fpart) : Nat) : Int) * (10 : Int) ^ (e - (fpart.length : Int)).toNat,
      den10 := 0 }
  else
    { num := ((digitsToNat (ipart ++ fpart) : Nat) : Int),
      den10 := ((fpart.length : Int) - e).toNat }

/-- Magnitude of a Python float literal (sign already removed). -/
def pyFloatMag (cs1 : List Char) : Option DecScaled :=
  let irun := cs1.takeWhile isRunChar
  let rest1 := cs1.dropWhile isRunChar
  if !irun.isEmpty && !underscoreRunOk irun then Option.none
  else
    match rest1 with
    | '.' :: cs3 =>
      let frun := cs3.takeWhile isRunChar
      let rest2 := cs3.dropWhile isRunChar
      if !frun.isEmpty && !underscoreRunOk frun then Option.none
      else if irun.isEmpty && frun.isEmpty then Option.none
      else (parseExpPart rest2).map (fun e =>
        decParts (stripUnderscores irun) (stripUnderscores frun) e)
    | _ =>
      if irun.isEmpty then Option.none
      else (parseExpPart rest1).map (fun e =>
        decParts (stripUnderscores irun) [] e)

/-! ### IEEE-754 binary64

A CPython `float` is a binary64 double: `float()` on a decimal literal and
float multiplication are both correctly rounded (round to nearest, ties to
even), overflowing to an infinity; `int()` truncates a finite double toward
zero and raises `OverflowError` on an infinity. -/

/-- Bit length of a natural number, with explicit fuel so the kernel can
evaluate it; `nbits` instantiates the fuel with the number itself. -/
def nbitsAux : Nat → Nat → Nat
  | 0, _ => 0
  | fuel + 1, n => if n = 0 then 0 else nbitsAux fuel (n / 2) + 1

/-- Bit length: for `n ≥ 1`, `2 ^ (nbits n - 1) ≤ n < 2 ^ nbits n`. -/
def nbits (n : Nat) : Nat := nbitsAux n n

/-- Round `p / q` (with `q ≥ 1`) to the nearest natural, ties to even. -/
def roundNE (p q : Nat) : Nat :=
  if 2 * (p % q) < q then p / q
  else if q < 2 * (p % q) then p / q + 1
  else if p / q % 2 = 0 then p / q else p / q + 1

/-- An IEEE-754 binary64 value: a finite value `m * 2 ^ e` or an infinity
(`NaN` cannot arise on the paths the scraper exercises, see the header). -/
inductive PyFloat where
  | finite : Int → Int → PyFloat
  | inf : Bool → PyFloat
deriving DecidableEq

/-- Is `a / b ≥ 2 ^ t`, by cross-multiplying with the sign of `t`. -/
def ratGE (a b : Nat) (t : Int) : Bool :=
  if 0 ≤ t then decide (b * 2 ^ t.toNat ≤ a) else decide (b ≤ a * 2 ^ (-t).toNat)

/-- The binade of `a / b` (for `a, b ≥ 1`): the `E` with
`2 ^ E ≤ a / b < 2 ^ (E + 1)`, from the bit lengths plus one correction. -/
def chooseE (a b : Nat) : Int :=
  if ratGE a b ((nbits a : Int) - (nbits b : Int)) then (nbits a : Int) - (nbits b : Int)
  else (nbits a : Int) - (nbits b : Int) - 1

/-- Round the positive rational `a / b` (`a, b ≥ 1`) to the nearest binary64:
scale into the binade, round the 53-bit mantissa ties-to-even, re-normalize a
mantissa overflow, overflow past `2 ^ 1024` to infinity, and round on the
fixed `2 ^ -1074` grid below the normal range. -/
def roundPosToB64 (a b : Nat) : PyFloat :=
  let E : Int := chooseE a b
  if E < -1022 then
    PyFloat.finite ((roundNE (a * 2 ^ 1074) b : Nat) : Int) (-1074)
  else
    let p : Nat := if 0 ≤ 52 - E then a * 2 ^ (52 - E).toNat else a
    let q : Nat := if 0 ≤ 52 - E then b else b * 2 ^ (E - 52).toNat
    let m := roundNE p q
    if m = 2 ^ 53 then
      if 1023 < E + 1 then PyFloat.inf false
      else PyFloat.finite ((2 ^ 52 : Nat) : Int) (E + 1 - 52)
    else
      if 1023 < E then PyFloat.inf false
      else PyFloat.finite ((m : Nat) : Int) (E - 52)

/-- `float()` of a non-negative parsed literal magnitude: the exact decimal
`num / 10 ^ den10`, correctly rounded to binary64. -/
def b64OfDec (v : DecScaled) : PyFloat :=
  if v.num ≤ 0 then PyFloat.finite 0 0
  else roundPosToB64 v.num.toNat (10 ^ v.den10)

/-- Negation of a binary64 value (exact in IEEE-754). -/
def floatNeg : PyFloat → PyFloat
  | PyFloat.finite m e => PyFloat.finite (-m) e
  | PyFloat.inf s => PyFloat.inf (!s)

/-- Round the positive value `M * 2 ^ e` to binary64. -/
def roundScaled (M : Nat) (e : Int) : PyFloat :=
  if 0 ≤ e then roundPosToB64 (M * 2 ^ e.toNat) 1
  else roundPosToB64 M (2 ^ (-e).toNat)

/-- Binary64 multiplication by a positive machine integer (such as 1000 or
1000000, themselves exact doubles): the exact product, correctly rounded. -/
def floatMulNat (f : PyFloat) (k : Nat) : PyFloat :=
  match f with
  | PyFloat.inf s => PyFloat.inf s
  | PyFloat.finite m e =>
    if m = 0 then PyFloat.finite 0 0
    else if 0 < m then roundScaled (m.toNat * k) e
    else floatNeg (roundScaled ((-m).toNat * k) e)

/-- Python `int()` of a float: truncation toward zero; `Option.none` models
the `OverflowError` an infinity raises. -/
def pyIntOfFloat : PyFloat → Option Int
  | PyFloat.inf _ => Option.none
  | PyFloat.finite m e =>
    if 0 ≤ e then some (m * (2 : Int) ^ e.toNat)
    else if 0 ≤ m then some ((m.toNat / 2 ^ (-e).toNat : Nat) : Int)
    else some (-(((-m).toNat / 2 ^ (-e).toNat : Nat) : Int))

/-- Python `float(x)` on an already-stripped string: parse the exact decimal
literal, round to binary64, apply the sign; `Option.none` models
`ValueError` (and the non-finite literals, see header). -/
def pyFloat (cs : List Char) : Option PyFloat :=
  match pyFloatMag (splitSign cs).2 with
  | some v =>
    some (if (splitSign cs).1 < 0 then floatNeg (b64OfDec v) else b64OfDec v)
  | Option.none => Option.none

/-- Python `int(x)` on an already-stripped string. -/
def pyInt (cs : List Char) : Option Int :=
  let sc := splitSign cs
  if !sc.2.isEmpty && sc.2.all isRunChar && underscoreRunOk sc.2 then
    some (sc.1 * ((digitsToNat (stripUnderscores sc.2) : Nat) : Int))
  else Option.none

/-- `_parse_count` (source lines 636-647): strip, uppercase, multiply the
parsed float prefix by 1000 on `K`, by 1000000 on `M`, else parse a plain
int; any exception — `ValueError` from parsing or `OverflowError` from
`int(inf)` — yields 0. -/
def _parse_count (s : String) : Int :=
  let cs := (stripChars s.data).map pyUpper
  if hasChar cs 'K' then
    match pyFloat (cs.filter (fun c => !(c == 'K'))) with
    | some f =>
      match pyIntOfFloat (floatMulNat f 1000) with
      | some n => n
      | Option.none => 0
    | Option.none => 0
  else if hasChar cs 'M' then
    match pyFloat (cs.filter (fun c => !(c == 'M'))) with
    | some f =>
      match pyIntOfFloat (floatMulNat f 1000000) with
      | some n => n
      | Option.none => 0
    | Option.none => 0
  else
    match pyInt cs with
    | some n => n
    | Option.none => 0

/-! ## CommentHarvester (`_scrape_comments_from_page`, `_extract_comment_data`,
source lines 460-634)

A rendered comment DOM node is modelled by the outcome of each selector
fallback chain: `some t` = some selector in the chain found an element whose
`inner_text` returned `t` (possibly empty), `Option.none` = every strategy
failed or raised.  `fullText` is `element.inner_text()` itself
(`Option.none` = it raises). -/

/-- A comment record as built by `_extract_comment_data`. -/
structure Comment where
  text : String
  author : String
  likes : Int
  timestamp : String
deriving DecidableEq

/-- A top-level comment DOM node, by selector-chain outcome. -/
structure CommentNode where
  textSel : Option String
  fullText : Option String
  usernameSel : Option String
  likeSel : Option String
  timeSel : Option String
deriving DecidableEq

/-- An entry of the list `_scrape_comments_from_page` returns.  The source
appends extracted dicts onto the same Python list that holds the queried DOM
element handles, so the returned list mixes both kinds of value. -/
inductive CEntry where
  | node : CommentNode → CEntry
  | data : Comment → CEntry
deriving DecidableEq

/-- `_extract_comment_data` (source lines 546-634). -/
def _extract_comment_data (n : CommentNode) : Option Comment :=
  let t0 := match n.textSel with | some t => t | Option.none => ""
  match (if t0 = "" then n.fullText else some t0) with
  | Option.none => Option.none
  | some ctext =>
    let uname := match n.usernameSel with | some u => u | Option.none => ""
    let likes := match n.likeSel with | some lt => _parse_count lt | Option.none => 0
    let tstamp := match n.timeSel with | some ts => ts | Option.none => ""
    if ctext ≠ "" then
      some { text := pyStripS ctext,
             author := if uname ≠ "" then pyStripS uname else "Unknown",
             likes := likes,
             timestamp := if tstamp ≠ "" then pyStripS tstamp else "" }
    else Option.none

/-- A video detail page's comment panel: is the `comment-icon` present, the
node set rendered after clicking it, and the node set rendered after each
scroll of the comment section. -/
structure CommentPage where
  commentIcon : Bool
  initialNodes : List CommentNode
  nodesAfterScroll : Nat → List CommentNode

/-- The inner scroll loop of `_scrape_comments_from_page` (lines 497-529):
up to 5 scroll attempts, keeping the larger node set after each re-query. -/
def commentScrollLoop (page : CommentPage) (maxComments : Nat) :
    Nat → Nat → List CommentNode → List CommentNode
  | 0, _, cur => cur
  | remaining + 1, attempt, cur =>
    if cur.length < maxComments then
      let elements := page.nodesAfterScroll attempt
      commentScrollLoop page maxComments remaining (attempt + 1)
        (if cur.length < elements.length then elements else cur)
    else cur

/-- `_scrape_comments_from_page` (source lines 460-544).  If the comment icon
is absent, `icon.click()` raises and the outer handler returns the
still-empty list.  The extraction loop iterates over a slice copy of the
first `maxComments` node handles while appending the extracted dicts onto the
same mixed list that is returned. -/
def _scrape_comments_from_page (page : CommentPage) (maxComments : Nat) : List CEntry :=
  if !page.commentIcon then []
  else if page.initialNodes.isEmpty then []
  else
    let nodes := commentScrollLoop page maxComments 5 0 page.initialNodes
    nodes.map CEntry.node ++
      ((nodes.take maxComments).filterMap _extract_comment_data).map CEntry.data

/-! ## StructuredExtractor, detail mode (`_parse_video_details_json`,
source lines 649-738) -/

/-- The author sub-dict of a detail record (lines 675-684). -/
structure AuthorD where
  id : PyVal
  username : PyVal
  nickname : PyVal
  verified : PyVal
  avatar : PyVal
  signature : PyVal

/-- The stats sub-dict of a detail record (lines 686-695). -/
structure StatsD where
  views : PyVal
  likes : PyVal
  comments : PyVal
  shares : PyVal
  saves : PyVal

/-- The video sub-dict of a detail record (lines 697-708); the source key
`'ratio'` is the `aspect` field here. -/
structure MediaD where
  duration : PyVal
  aspect : PyVal
  cover : PyVal
  download_url : PyVal
  play_url : PyVal
  width : PyVal
  height : PyVal

/-- The music sub-dict of a detail record (lines 710-719). -/
structure MusicD where
  id : PyVal
  title : PyVal
  author : PyVal
  duration : PyVal
  original : PyVal

/-- One entry of the detail record's hashtag list (lines 721-730). -/
structure HashtagD where
  id : PyVal
  title : PyVal
  description : PyVal

/-- The item-dependent fields of a detail record. -/
structure DetailFields where
  id : PyVal
  description : PyVal
  created_at : PyVal
  author : Option AuthorD
  stats : Option StatsD
  media : Option MediaD
  music : Option MusicD
  hashtags : Option (List HashtagD)

/-- The dict `_parse_video_details_json` returns on success. -/
structure VideoDetails where
  url : String
  scraped_via : String
  id : PyVal
  description : PyVal
  created_at : PyVal
  author : Option AuthorD
  stats : Option StatsD
  video : Option MediaD
  music : Option MusicD
  hashtags : Option (List HashtagD)
  comments : Option (List CEntry)

/-- An optional sub-dict of the item: absent key skips the block
(`some Option.none`); a present non-dict value raises (`Option.none`). -/
def subDict (ikvs : List (String × PyVal)) (k : String) :
    Option (Option (List (String × PyVal))) :=
  match ikvs.lookup k with
  | Option.none => some Option.none
  | some (PyVal.vdict kvs2) => some (some kvs2)
  | some _ => Option.none

/-- One entry of the `challenges` list: `tag.get(...)` raises on a non-dict. -/
def tagD (t : PyVal) : Option HashtagD :=
  match t with
  | PyVal.vdict kvs =>
    some { id := kvsGet kvs "id" PyVal.vnone,
           title := kvsGet kvs "title" PyVal.vnone,
           description := kvsGet kvs "desc" (PyVal.vstr "") }
  | _ => Option.none

/-- The optional `challenges` block (lines 721-730). -/
def subTags (ikvs : List (String × PyVal)) : Option (Option (List HashtagD)) :=
  match ikvs.lookup "challenges" with
  | Option.none => some Option.none
  | some (PyVal.vlist xs) => (xs.mapM tagD).map some
  | some _ => Option.none

/-- Locate `__DEFAULT_SCOPE__ / webapp.video-detail / itemInfo / itemStruct`
and read the item's fields; `Option.none` models both the `return None`
fall-throughs and exceptions caught by the function's `except`. -/
def detailItemFields (data : PyVal) : Option DetailFields :=
  match data with
  | PyVal.vdict kvs =>
    match kvs.lookup "__DEFAULT_SCOPE__" with
    | some (PyVal.vdict scopeKvs) =>
      match scopeKvs.lookup "webapp.video-detail" with
      | some (PyVal.vdict detailKvs) =>
        match detailKvs.lookup "itemInfo" with
        | some (PyVal.vdict infoKvs) =>
          match infoKvs.lookup "itemStruct" with
          | some (PyVal.vdict ikvs) => do
            let akvs ← subDict ikvs "author"
            let skvs ← subDict ikvs "stats"
            let vkvs ← subDict ikvs "video"
            let mkvs ← subDict ikvs "music"
            let tags ← subTags ikvs
            some { id := kvsGet ikvs "id" PyVal.vnone,
                   description := kvsGet ikvs "desc" (PyVal.vstr ""),
                   created_at := kvsGet ikvs "createTime" PyVal.vnone,
                   author := akvs.map (fun a =>
                     { id := kvsGet a "id" PyVal.vnone,
                       username := kvsGet a "uniqueId" PyVal.vnone,
                       nickname := kvsGet a "nickname" PyVal.vnone,
                       verified := kvsGet a "verified" (PyVal.vbool false),
                       avatar := kvsGet a "avatarThumb" PyVal.vnone,
                       signature := kvsGet a "signature" (PyVal.vstr "") }),
                   stats := skvs.map (fun s =>
                     { views := kvsGet s "playCount" (PyVal.vint 0),
                       likes := kvsGet s "diggCount" (PyVal.vint 0),
                       comments := kvsGet s "commentCount" (PyVal.vint 0),
                       shares := kvsGet s "shareCount" (PyVal.vint 0),
                       saves := kvsGet s "collectCount" (PyVal.vint 0) }),
                   media := vkvs.map (fun v =>
                     { duration := kvsGet v "duration" PyVal.vnone,
                       aspect := kvsGet v "ratio" PyVal.vnone,
                       cover := kvsGet v "cover" PyVal.vnone,
                       download_url := kvsGet v "downloadAddr" PyVal.vnone,
                       play_url := kvsGet v "playAddr" PyVal.vnone,
                       width := kvsGet v "width" PyVal.vnone,
                       height := kvsGet v "height" PyVal.vnone }),
                   music := mkvs.map (fun m =>
                     { id := kvsGet m "id" PyVal.vnone,
                       title := kvsGet m "title" PyVal.vnone,
                       author := kvsGet m "authorName" PyVal.vnone,
                       duration := kvsGet m "duration" PyVal.vnone,
                       original := kvsGet m "original" (PyVal.vbool false) }),
                   hashtags := tags }
          | _ => Option.none
        | _ => Option.none
      | _ => Option.none
    | _ => Option.none
  | _ => Option.none

/-- `_parse_video_details_json` (source lines 649-738): the returned dict is
seeded with the url and `scraped_via = 'video_page'`, then filled from the
item struct; every failure path yields `None`. -/
def _parse_video_details_json (data : PyVal) (videoUrl : String) : Option VideoDetails :=
  (detailItemFields data).map (fun f =>
    { url := videoUrl, scraped_via := "video_page", id := f.id,
      description := f.description, created_at := f.created_at,
      author := f.author, stats := f.stats, video := f.media,
      music := f.music, hashtags := f.hashtags, comments := Option.none })

/-! ## ElementExtractor and ScrollCollector
(`_extract_video_info_from_element`, `_scrape_videos_by_scrolling`,
source lines 278-379) -/

/-- The all-zero stats dict of a scroll-extracted item (lines 370-375). -/
structure BasicStats where
  views : Int
  likes : Int
  comments : Int
  shares : Int
deriving DecidableEq

/-- The basic item dict built by `_extract_video_info_from_element`. -/
structure VideoInfo where
  id : Option String
  url : String
  stats_text : String
  scraped_via : String
  stats : BasicStats
deriving DecidableEq

/-- `re.search(r'/video/(\d+)', url)`: first position where `/video/` is
followed by at least one digit; group 1 is the maximal digit run. -/
def findVideoId : List Char → Option String
  | [] => Option.none
  | c :: rest =>
    if startsWithChars "/video/".data (c :: rest)
        && !(((c :: rest).drop 7).takeWhile Char.isDigit).isEmpty then
      some (String.mk (((c :: rest).drop 7).takeWhile Char.isDigit))
    else findVideoId rest

/-- `_extract_video_info_from_element` (source lines 354-379). -/
def _extract_video_info_from_element (statsText : String) (url : String) : VideoInfo :=
  { id := findVideoId url.data,
    url := if startsWithChars "http".data url.data then url
           else "https://www.tiktok.com" ++ url,
    stats_text := statsText,
    scraped_via := "html_scroll",
    stats := { views := 0, likes := 0, comments := 0, shares := 0 } }

/-- One rendered `challenge-item` node: the `href` of its anchor
(`Option.none` = no anchor / `get_attribute` returned nothing) and its
`inner_text` (`Option.none` = the call raises and the node is skipped). -/
structure ScrollNode where
  href : Option String
  innerText : Option String
deriving DecidableEq

/-- A simulated infinite-scroll feed page: the nodes rendered at each round,
and the two `document.body.scrollHeight` measurements of each round
(`hCur` before the scroll, `hNew` after the scroll and pause). -/
structure Feed where
  nodesAt : Nat → List ScrollNode
  hCur : Nat → Nat
  hNew : Nat → Nat

/-- The per-round extraction `for` loop (lines 302-319): skip nodes already
collected by raw `href`, stop at `max_videos`, swallow per-node failures. -/
def collectRound (nodes : List ScrollNode) (maxVideos : Nat)
    (videos : List VideoInfo) : List VideoInfo :=
  match nodes with
  | [] => videos
  | n :: rest =>
    if maxVideos ≤ videos.length then videos
    else
      match n.href with
      | some h =>
        if h ≠ "" ∧ h ∉ videos.map VideoInfo.url then
          match n.innerText with
          | some t =>
            collectRound rest maxVideos (videos ++ [_extract_video_info_from_element t h])
          | Option.none => collectRound rest maxVideos videos
        else collectRound rest maxVideos videos
      | Option.none => collectRound rest maxVideos videos

/-- The scroll `while` loop (lines 290-334), with fuel: continue while
`len(videos) < max_videos and scroll_attempts < 20`; a round with no height
growth increments `scroll_attempts`, any growth resets it to 0. -/
def scrollLoop (feed : Feed) (maxVideos : Nat) :
    Nat → Nat → Nat → List VideoInfo → Option (List VideoInfo)
  | 0, _, _, _ => Option.none
  | fuel + 1, round, attempts, videos =>
    if maxVideos ≤ videos.length ∨ 20 ≤ attempts then some videos
    else
      scrollLoop feed maxVideos fuel (round + 1)
        (if feed.hNew round == feed.hCur round then attempts + 1 else 0)
        (collectRound (feed.nodesAt round) maxVideos videos)

/-! ## DetailEnricher (`scrape_video_details`, source lines 381-458) -/

/-- `count > 0` on a dynamic value; non-numeric values raise
(`Option.none`), which the outer handler turns into a `None` result. -/
def pyGtZero : PyVal → Option Bool
  | PyVal.vint n => some (0 < n)
  | PyVal.vbool b => some b
  | _ => Option.none

/-- The comment-count hint `video_details.get('stats', {}).get('comments', 0) > 0`
(line 443-444). -/
def commentHint (vd : VideoDetails) : Option Bool :=
  match vd.stats with
  | Option.none => some false
  | some s => pyGtZero s.comments

/-- `scrape_video_details` (source lines 381-458).  `pagePayload` is the
embedded script payload of the item's detail page; `Option.none` covers a
missing script tag, invalid JSON and navigation errors alike — every one ends
in `return None`.  When comments are requested and the hint is positive, the
(buggy, mixed) harvest result is attached when non-empty. -/
def scrape_video_details (pagePayload : Option PyVal) (videoUrl : String)
    (scrapeComments : Bool) (maxComments : Nat) (cpage : CommentPage) :
    Option VideoDetails :=
  match pagePayload with
  | Option.none => Option.none
  | some data =>
    match _parse_video_details_json data videoUrl with
    | Option.none => Option.none
    | some vd =>
      if scrapeComments then
        match commentHint vd with
        | Option.none => Option.none
        | some false => some vd
        | some true =>
          let cs := _scrape_comments_from_page cpage maxComments
          if cs.isEmpty then some vd else some { vd with comments := some cs }
      else some vd

/-! ## StructuredExtractor, feed mode (`_parse_hashtag_json`,
`_parse_video_item`, source lines 190-276) -/

/-- The author sub-dict of a feed item (lines 243-249). -/
structure JsonAuthor where
  id : PyVal
  username : PyVal
  nickname : PyVal
  verified : PyVal
  avatar : PyVal

/-- The stats sub-dict of a feed item (lines 250-255). -/
structure JsonStats where
  views : PyVal
  likes : PyVal
  comments : PyVal
  shares : PyVal

/-- The video sub-dict of a feed item (lines 256-262); source key `'ratio'`
is the `aspect` field here. -/
structure JsonMedia where
  duration : PyVal
  aspect : PyVal
  cover : PyVal
  download_url : PyVal
  play_url : PyVal

/-- The music sub-dict of a feed item (lines 263-267). -/
structure JsonMusic where
  id : PyVal
  title : PyVal
  author : PyVal

/-- The dict `_parse_video_item` returns on success. -/
structure JsonVideo where
  id : PyVal
  description : PyVal
  created_at : PyVal
  author : JsonAuthor
  stats : JsonStats
  video : JsonMedia
  music : JsonMusic
  hashtags : List PyVal
  url : String

/-- `item.get(k, {})` followed by attribute access: absent key defaults to
the empty dict, a present non-dict raises (`Option.none`). -/
def getOrEmptyDict (ikvs : List (String × PyVal)) (k : String) :
    Option (List (String × PyVal)) :=
  match ikvs.lookup k with
  | Option.none => some []
  | some (PyVal.vdict kvs2) => some kvs2
  | some _ => Option.none

/-- `item.get('challenges', [])` followed by iteration: a present non-list
value (or a non-dict element, via `tag.get`) raises. -/
def getOrEmptyList (ikvs : List (String × PyVal)) (k : String) :
    Option (List PyVal) :=
  match ikvs.lookup k with
  | Option.none => some []
  | some (PyVal.vlist xs) => some xs
  | some _ => Option.none

/-- `tag.get('title')` on one entry of the `challenges` list. -/
def tagTitle (t : PyVal) : Option PyVal :=
  match t with
  | PyVal.vdict kvs => some (kvsGet kvs "title" PyVal.vnone)
  | _ => Option.none

/-- `_parse_video_item` (source lines 235-276); any exception while building
the dict yields `None` and the caller drops the item. -/
def _parse_video_item (ikvs : List (String × PyVal)) : Option JsonVideo := do
  let akvs ← getOrEmptyDict ikvs "author"
  let skvs ← getOrEmptyDict ikvs "stats"
  let vkvs ← getOrEmptyDict ikvs "video"
  let mkvs ← getOrEmptyDict ikvs "music"
  let tags ← getOrEmptyList ikvs "challenges"
  let titles ← tags.mapM tagTitle
  some { id := kvsGet ikvs "id" PyVal.vnone,
         description := kvsGet ikvs "desc" (PyVal.vstr ""),
         created_at := kvsGet ikvs "createTime" PyVal.vnone,
         author := { id := kvsGet akvs "id" PyVal.vnone,
                     username := kvsGet akvs "uniqueId" PyVal.vnone,
                     nickname := kvsGet akvs "nickname" PyVal.vnone,
                     verified := kvsGet akvs "verified" (PyVal.vbool false),
                     avatar := kvsGet akvs "avatarThumb" PyVal.vnone },
         stats := { views := kvsGet skvs "playCount" (PyVal.vint 0),
                    likes := kvsGet skvs "diggCount" (PyVal.vint 0),
                    comments := kvsGet skvs "commentCount" (PyVal.vint 0),
                    shares := kvsGet skvs "shareCount" (PyVal.vint 0) },
         video := { duration := kvsGet vkvs "duration" PyVal.vnone,
                    aspect := kvsGet vkvs "ratio" PyVal.vnone,
                    cover := kvsGet vkvs "cover" PyVal.vnone,
                    download_url := kvsGet vkvs "downloadAddr" PyVal.vnone,
                    play_url := kvsGet vkvs "playAddr" PyVal.vnone },
         music := { id := kvsGet mkvs "id" PyVal.vnone,
                    title := kvsGet mkvs "title" PyVal.vnone,
                    author := kvsGet mkvs "authorName" PyVal.vnone },
         hashtags := titles,
         url := "https://www.tiktok.com/@" ++ pyStr (kvsGet akvs "uniqueId" PyVal.vnone)
                  ++ "/video/" ++ pyStr (kvsGet ikvs "id" PyVal.vnone) }

/-- An entry of a result's `videos` list.  The Python lists hold plain dicts;
the constructor records which code path built the dict. -/
inductive Video where
  | json : JsonVideo → Video
  | basic : VideoInfo → Video
  | detailed : VideoDetails → Video

/-- The body of the detail-scraping `for` loop (lines 340-349): a successful
detail visit replaces the item, a failed one keeps the basic record. -/
def enrichStep (dp : String → Option PyVal) (scrapeComments : Bool)
    (maxComments : Nat) (cp : String → CommentPage) (v : VideoInfo) : Video :=
  match scrape_video_details (dp v.url) v.url scrapeComments maxComments (cp v.url) with
  | some d => Video.detailed d
  | Option.none => Video.basic v

/-- `_scrape_videos_by_scrolling` (source lines 278-352): run the scroll
loop, then, only when a context was passed (detailed scraping), enrich each
collected item; both paths truncate to `max_videos`. -/
def _scrape_videos_by_scrolling (feed : Feed) (maxVideos fuel : Nat)
    (detailed : Bool) (dp : String → Option PyVal) (scrapeComments : Bool)
    (maxComments : Nat) (cp : String → CommentPage) : Option (List Video) :=
  match scrollLoop feed maxVideos fuel 0 0 [] with
  | Option.none => Option.none
  | some videos =>
    if detailed then
      some ((videos.map (enrichStep dp scrapeComments maxComments cp)).take maxVideos)
    else some ((videos.map Video.basic).take maxVideos)

/-- The `hashtag_info` dict of a feed result (lines 210-217);
`Option.none` in the result means it stayed the initial empty dict. -/
structure HMeta where
  id : PyVal
  title : PyVal
  description : PyVal
  view_count : PyVal
  video_count : PyVal
  is_commerce : PyVal

/-- The dict `scrape_hashtag` ultimately returns.  `scraped_at` is `some`
only on the `_parse_hashtag_json` path (the JSON-failure dict has no such
key); `hashtag_info = Option.none` covers both a missing key and the empty
dict. -/
structure HashtagResult where
  hashtag : String
  scraped_at : Option String
  hashtag_info : Option HMeta
  videos : List Video
  error : Option String

/-- The challenge-info step of `_parse_hashtag_json` (lines 201-217):
`some Option.none` = section absent, `some (some m)` = parsed,
`Option.none` = an exception that aborts the whole `try` (the partial result
with empty `videos` is returned). -/
def challengeStep (scopeKvs : List (String × PyVal)) : Option (Option HMeta) :=
  match scopeKvs.lookup "webapp.challenge-detail" with
  | Option.none => some Option.none
  | some (PyVal.vdict ckvs) =>
    match ckvs.lookup "challengeInfo" with
    | Option.none => some Option.none
    | some (PyVal.vdict cikvs) =>
      match cikvs.lookup "challenge" with
      | some (PyVal.vdict ikvs) =>
        some (some { id := kvsGet ikvs "id" PyVal.vnone,
                     title := kvsGet ikvs "title" PyVal.vnone,
                     description := kvsGet ikvs "desc" PyVal.vnone,
                     view_count := kvsGet ikvs "viewCount" PyVal.vnone,
                     video_count := kvsGet ikvs "videoCount" PyVal.vnone,
                     is_commerce := kvsGet ikvs "isCommerce" (PyVal.vbool false) })
      | _ => Option.none
    | some _ => Option.none
  | some _ => Option.none

/-- The item-collection step of `_parse_hashtag_json` (lines 219-228): every
scope key whose name contains `itemList` or `itemModule` and maps to a dict
contributes each dict entry that itself holds a `video` key. -/
def videoLoop (scopeKvs : List (String × PyVal)) : List JsonVideo :=
  scopeKvs.foldl (fun acc kv =>
    if hasSubstr "itemList".data kv.1.data || hasSubstr "itemModule".data kv.1.data then
      match kv.2 with
      | PyVal.vdict items =>
        acc ++ items.foldl (fun acc2 ikv =>
          match ikv.2 with
          | PyVal.vdict ikvs =>
            if (ikvs.lookup "video").isSome then
              match _parse_video_item ikvs with
              | some jv => acc2 ++ [jv]
              | Option.none => acc2
            else acc2
          | _ => acc2) []
      | _ => acc
    else acc) []

/-- `_parse_hashtag_json` (source lines 190-233).  `now` is the
`datetime.now().isoformat()` timestamp, passed in as data.  A non-dict
payload or scope, or an exception in the challenge step, ends the `try` and
the base result (empty `videos`) is returned. -/
def _parse_hashtag_json (data : PyVal) (hashtag now : String) : HashtagResult :=
  let base : HashtagResult :=
    { hashtag := hashtag, scraped_at := some now, hashtag_info := Option.none,
      videos := [], error := Option.none }
  match data with
  | PyVal.vdict kvs =>
    match kvs.lookup "__DEFAULT_SCOPE__" with
    | Option.none => base
    | some (PyVal.vdict scopeKvs) =>
      match challengeStep scopeKvs with
      | Option.none => base
      | some hinfo =>
        { base with hashtag_info := hinfo,
                    videos := (videoLoop scopeKvs).map Video.json }
    | some _ => base
  | _ => base

/-- `_extract_from_json` (source lines 152-188): `payload` is the embedded
script tag's content after `json.loads`; `Option.none` covers a missing
script tag and invalid JSON, both of which end in the keyless
`{'hashtag': ..., 'videos': []}` dict. -/
def _extract_from_json (payload : Option PyVal) (hashtag now : String) : HashtagResult :=
  match payload with
  | some data => _parse_hashtag_json data hashtag now
  | Option.none =>
    { hashtag := hashtag, scraped_at := Option.none, hashtag_info := Option.none,
      videos := [], error := Option.none }

/-- `_extract_hashtag_data` (source lines 125-150): the scroll fallback (and
with it the detail enrichment) runs only when the JSON extraction produced no
videos. -/
def _extract_hashtag_data (payload : Option PyVal) (feed : Feed) (fuel : Nat)
    (hashtag now : String) (maxVideos : Nat) (detailed : Bool)
    (dp : String → Option PyVal) (scrapeComments : Bool) (maxComments : Nat)
    (cp : String → CommentPage) : Option HashtagResult :=
  let hinfo := _extract_from_json payload hashtag now
  if hinfo.videos.isEmpty then
    match _scrape_videos_by_scrolling feed maxVideos fuel detailed dp
        scrapeComments maxComments cp with
    | some vids => some { hinfo with videos := vids }
    | Option.none => Option.none
  else some hinfo

/-- The outcome of `page.goto` on the feed page. -/
inductive NavOutcome where
  | ok : NavOutcome
  | timeout : NavOutcome
  | failure : String → NavOutcome

/-- One scraping session's external world: the feed-page navigation outcome,
whether the Refresh button is present, the feed page's embedded payload, the
scroll behaviour, and each video url's detail page and comment panel. -/
structure Session where
  nav : NavOutcome
  refreshButton : Bool
  payload : Option PyVal
  feed : Feed
  detailPages : String → Option PyVal
  commentPages : String → CommentPage
  now : String

/-- `scrape_hashtag` (source lines 23-122).  A `page.goto` timeout is caught
as `PlaywrightTimeout` and any other navigation failure by the generic
handler, each producing an error dict.  When the Refresh button is absent,
`page.get_by_role("button", name="Refresh").click()` (line 92) waits for the
locator and raises `TimeoutError` — the imported `PlaywrightTimeout` — which
the same handler turns into the `'timeout'` error dict. -/
def scrape_hashtag (s : Session) (hashtag : String) (maxVideos : Nat)
    (detailed scrapeComments : Bool) (maxComments fuel : Nat) :
    Option HashtagResult :=
  let tag := pyLstripHash hashtag
  match s.nav with
  | NavOutcome.timeout =>
    some { hashtag := tag, scraped_at := Option.none, hashtag_info := Option.none,
           videos := [], error := some "timeout" }
  | NavOutcome.failure m =>
    some { hashtag := tag, scraped_at := Option.none, hashtag_info := Option.none,
           videos := [], error := some m }
  | NavOutcome.ok =>
    if s.refreshButton then
      _extract_hashtag_data s.payload s.feed fuel tag s.now maxVideos detailed
        s.detailPages scrapeComments maxComments s.commentPages
    else
      some { hashtag := tag, scraped_at := Option.none, hashtag_info := Option.none,
             videos := [], error := some "timeout" }

/-- A comment panel with nothing on it. -/
def emptyCommentPage : CommentPage :=
  { commentIcon := false, initialNodes := [], nodesAfterScroll := fun _ => [] }

/-! ## Concrete sessions and pages used by witnesses and counterexamples -/

/-- A feed node whose anchor carries a relative href. -/
def nRel : ScrollNode := { href := some "/video/1", innerText := some "" }

/-- A feed that renders the same relative-href node in rounds 0 and 1 and
whose height never grows. -/
def cFeedDup : Feed :=
  { nodesAt := fun r => if r ≤ 1 then [nRel] else [],
    hCur := fun _ => 5, hNew := fun _ => 5 }

/-- The item extracted from `nRel`. -/
def vRel : VideoInfo := _extract_video_info_from_element "" "/video/1"

/-- A feed node whose anchor carries an absolute href. -/
def nAbs : ScrollNode := { href := some "http://t/video/1", innerText := some "" }

/-- A stagnant feed that renders `nAbs` on every round. -/
def wFeedAbs : Feed :=
  { nodesAt := fun _ => [nAbs], hCur := fun _ => 5, hNew := fun _ => 5 }

/-- The item extracted from `nAbs`. -/
def vAbs : VideoInfo := _extract_video_info_from_element "" "http://t/video/1"

/-- A comment node whose text selector yields `"hi"`. -/
def c3node : CommentNode :=
  { textSel := some "hi", fullText := Option.none, usernameSel := Option.none,
    likeSel := Option.none, timeSel := Option.none }

/-- A detail page with the comment icon and one rendered comment node. -/
def c3page : CommentPage :=
  { commentIcon := true, initialNodes := [c3node], nodesAfterScroll := fun _ => [c3node] }

/-- A minimal feed item entry of an embedded payload. -/
def c2item : List (String × PyVal) :=
  [("id", PyVal.vstr "1"), ("video", PyVal.vdict []),
   ("author", PyVal.vdict [("uniqueId", PyVal.vstr "u")])]

/-- A feed payload whose scope holds one item list with one valid entry. -/
def c2payload : PyVal :=
  PyVal.vdict [("__DEFAULT_SCOPE__",
    PyVal.vdict [("some-itemList", PyVal.vdict [("1", PyVal.vdict c2item)])])]

/-- The item `_parse_video_item` produces from `c2item`. -/
def c2jv : JsonVideo := {
  id := PyVal.vstr "1", description := PyVal.vstr "", created_at := PyVal.vnone,
  author := { id := PyVal.vnone, username := PyVal.vstr "u", nickname := PyVal.vnone,
              verified := PyVal.vbool false, avatar := PyVal.vnone },
  stats := { views := PyVal.vint 0, likes := PyVal.vint 0, comments := PyVal.vint 0,
             shares := PyVal.vint 0 },
  video := { duration := PyVal.vnone, aspect := PyVal.vnone, cover := PyVal.vnone,
             download_url := PyVal.vnone, play_url := PyVal.vnone },
  music := { id := PyVal.vnone, title := PyVal.vnone, author := PyVal.vnone },
  hashtags := [], url := "https://www.tiktok.com/@u/video/1" }

/-- A valid detail-page payload for the item's url. -/
def c2detailPayload : PyVal :=
  PyVal.vdict [("__DEFAULT_SCOPE__", PyVal.vdict [("webapp.video-detail",
    PyVal.vdict [("itemInfo", PyVal.vdict [("itemStruct",
      PyVal.vdict [("id", PyVal.vstr "1")])])])])]

/-- A detail-page oracle that serves `c2detailPayload` for every url. -/
def c2dp : String → Option PyVal := fun _ => some c2detailPayload

/-- A comment-page oracle with empty panels. -/
def c2cp : String → CommentPage := fun _ => emptyCommentPage

/-- An empty, immediately-stagnant feed. -/
def c2feed : Feed := { nodesAt := fun _ => [], hCur := fun _ => 0, hNew := fun _ => 0 }

/-- The result of the json path on `c2payload`. -/
def c2result : HashtagResult :=
  { hashtag := "tag", scraped_at := some "now", hashtag_info := Option.none,
    videos := [Video.json c2jv], error := Option.none }

/-- The detail record parsed from `c2detailPayload`. -/
def c2detail : VideoDetails :=
  { url := "https://www.tiktok.com/@u/video/1", scraped_via := "video_page",
    id := PyVal.vstr "1", description := PyVal.vstr "", created_at := PyVal.vnone,
    author := Option.none, stats := Option.none, video := Option.none,
    music := Option.none, hashtags := Option.none, comments := Option.none }

/-- A session whose feed page loads but has no Refresh button. -/
def c7sessionAbsent : Session :=
  { nav := NavOutcome.ok, refreshButton := false, payload := some c2payload,
    feed := c2feed, detailPages := fun _ => Option.none,
    commentPages := fun _ => emptyCommentPage, now := "now" }

/-- The same session with the Refresh button present. -/
def c7sessionPresent : Session := { c7sessionAbsent with refreshButton := true }

/-- A session whose feed-page navigation times out. -/
def c6session : Session :=
  { nav := NavOutcome.timeout, refreshButton := true, payload := some c2payload,
    feed := c2feed, detailPages := fun _ => Option.none,
    commentPages := fun _ => emptyCommentPage, now := "now" }

/-- A basic scroll item for the enrichment claims. -/
def c9basic : VideoInfo :=
  _extract_video_info_from_element "1.2K likes" "https://www.tiktok.com/@u/video/9"

/-- A valid detail payload for `c9basic`. -/
def c9payload : PyVal :=
  PyVal.vdict [("__DEFAULT_SCOPE__", PyVal.vdict [("webapp.video-detail",
    PyVal.vdict [("itemInfo", PyVal.vdict [("itemStruct",
      PyVal.vdict [("id", PyVal.vstr "9")])])])])]

/-- The detail record parsed from `c9payload` at `c9basic.url`. -/
def c9detail : VideoDetails :=
  { url := "https://www.tiktok.com/@u/video/9", scraped_via := "video_page",
    id := PyVal.vstr "9", description := PyVal.vstr "", created_at := PyVal.vnone,
    author := Option.none, stats := Option.none, video := Option.none,
    music := Option.none, hashtags := Option.none, comments := Option.none }

/-! ## Supporting lemmas -/

/-- The extraction round keeps stored urls pairwise distinct when the raw
hrefs it deduplicates on are absolute, since then the stored url is the href. -/
lemma collectRound_nodup (maxV : Nat) :
    ∀ (nodes : List ScrollNode) (videos : List VideoInfo),
      (∀ n ∈ nodes, ∀ s, n.href = some s → startsWithChars "http".data s.data = true) →
      (videos.map VideoInfo.url).Nodup →
      ((collectRound nodes maxV videos).map VideoInfo.url).Nodup := by
  intro nodes
  induction nodes with
  | nil => intro videos _ hnd; simpa [collectRound] using hnd
  | cons n rest ih =>
    obtain ⟨href, itext⟩ := n
    intro videos habs hnd
    have habs' : ∀ m ∈ rest, ∀ s, m.href = some s →
        startsWithChars "http".data s.data = true :=
      fun m hm s hs => habs m (List.mem_cons_of_mem _ hm) s hs
    by_cases hfull : maxV ≤ videos.length
    · simp only [collectRound, if_pos hfull]; exact hnd
    · cases href with
      | none =>
        simp only [collectRound, if_neg hfull]
        exact ih videos habs' hnd
      | some h =>
        by_cases hcond : h ≠ "" ∧ h ∉ videos.map VideoInfo.url
        · cases itext with
          | none =>
            simp only [collectRound, if_neg hfull, if_pos hcond]
            exact ih videos habs' hnd
          | some t =>
            simp only [collectRound, if_neg hfull, if_pos hcond]
            apply ih _ habs'
            have hhttp : startsWithChars "http".data h.data = true :=
              habs _ (List.mem_cons_self _ _) h rfl
            have hurl : (_extract_video_info_from_element t h).url = h := by
              simp [_extract_video_info_from_element, hhttp]
            simp [List.nodup_append, hurl, hnd, hcond.2]
        · simp only [collectRound, if_neg hfull, if_neg hcond]
          exact ih videos habs' hnd

/-- The scroll loop preserves url-distinctness round by round. -/
lemma scrollLoop_nodup (feed : Feed) (maxV : Nat)
    (habs : ∀ r, ∀ n ∈ feed.nodesAt r, ∀ s, n.href = some s →
      startsWithChars "http".data s.data = true) :
    ∀ fuel round attempts videos res,
      (videos.map VideoInfo.url).Nodup →
      scrollLoop feed maxV fuel round attempts videos = some res →
      (res.map VideoInfo.url).Nodup := by
  intro fuel
  induction fuel with
  | zero => intro round attempts videos res _ hrun; simp [scrollLoop] at hrun
  | succ fuel ih =>
    intro round attempts videos res hnd hrun
    simp only [scrollLoop] at hrun
    by_cases hexit : maxV ≤ videos.length ∨ 20 ≤ attempts
    · rw [if_pos hexit] at hrun
      cases hrun
      exact hnd
    · rw [if_neg hexit] at hrun
      exact ih _ _ _ _ (collectRound_nodup maxV _ _ (habs round) hnd) hrun

/-- With only stagnant rounds ahead, the attempts counter reaches 20 and the
loop exits within the remaining fuel. -/
lemma scrollLoop_stagnant_isSome (feed : Feed) (maxV : Nat) :
    ∀ k round attempts videos,
      (∀ r, round ≤ r → feed.hNew r = feed.hCur r) → 20 ≤ attempts + k →
      (scrollLoop feed maxV (k + 1) round attempts videos).isSome = true := by
  intro k
  induction k with
  | zero =>
    intro round attempts videos _ h20
    simp only [Nat.add_zero] at h20
    simp [scrollLoop, Or.inr h20]
  | succ k ih =>
    intro round attempts videos hst h20
    by_cases hexit : maxV ≤ videos.length ∨ 20 ≤ attempts
    · simp [scrollLoop, hexit]
    · have hs : feed.hNew round = feed.hCur round := hst round (Nat.le_refl _)
      have hstep : scrollLoop feed maxV (k + 1 + 1) round attempts videos =
          scrollLoop feed maxV (k + 1) (round + 1) (attempts + 1)
            (collectRound (feed.nodesAt round) maxV videos) := by
        simp [scrollLoop, hexit, hs]
      rw [hstep]
      exact ih (round + 1) (attempts + 1) _
        (fun r hr => hst r (by omega)) (by omega)

/-- Once the height stabilizes after `n` more rounds, fuel `n + 21` always
suffices for the loop to return. -/
lemma scrollLoop_progress_isSome (feed : Feed) (maxV : Nat) :
    ∀ n round attempts videos,
      (∀ r, round + n ≤ r → feed.hNew r = feed.hCur r) →
      (scrollLoop feed maxV (n + 21) round attempts videos).isSome = true := by
  intro n
  induction n with
  | zero =>
    intro round attempts videos hst
    exact scrollLoop_stagnant_isSome feed maxV 20 round attempts videos
      (fun r hr => hst r (by omega)) (by omega)
  | succ n ih =>
    intro round attempts videos hst
    by_cases hexit : maxV ≤ videos.length ∨ 20 ≤ attempts
    · have h1 : n + 1 + 21 = (n + 21) + 1 := by omega
      rw [h1]
      simp [scrollLoop, hexit]
    · have h1 : n + 1 + 21 = (n + 21) + 1 := by omega
      have hstep : scrollLoop feed maxV (n + 1 + 21) round attempts videos =
          scrollLoop feed maxV (n + 21) (round + 1)
            (if feed.hNew round == feed.hCur round then attempts + 1 else 0)
            (collectRound (feed.nodesAt round) maxV videos) := by
        rw [h1]
        simp [scrollLoop, hexit]
      rw [hstep]
      exact ih (round + 1) _ _ (fun r hr => hst r (by omega))

/-- A successful detail parse always carries `scraped_via = 'video_page'`
and the visited url. -/
lemma parse_details_fields (data : PyVal) (u : String) (d : VideoDetails)
    (h : _parse_video_details_json data u = some d) :
    d.scraped_via = "video_page" ∧ d.url = u := by
  unfold _parse_video_details_json at h
  cases hf : detailItemFields data with
  | none => rw [hf] at h; simp at h
  | some f =>
    rw [hf] at h
    simp only [Option.map_some', Option.some.injEq] at h
    rw [← h]
    exact ⟨rfl, rfl⟩

/-- A successful detail visit returns a record with
`scraped_via = 'video_page'`. -/
lemma scrape_video_details_via (pp : Option PyVal) (u : String) (sc : Bool)
    (mc : Nat) (cpage : CommentPage) (d : VideoDetails)
    (h : scrape_video_details pp u sc mc cpage = some d) :
    d.scraped_via = "video_page" := by
  cases pp with
  | none => simp [scrape_video_details] at h
  | some data =>
    simp only [scrape_video_details] at h
    cases hp : _parse_video_details_json data u with
    | none => rw [hp] at h; simp at h
    | some vd =>
      rw [hp] at h
      have hvd := (parse_details_fields data u vd hp).1
      cases sc with
      | false =>
        simp only [Bool.false_eq_true, if_false, Option.some.injEq] at h
        rw [← h]; exact hvd
      | true =>
        simp only [if_true] at h
        cases hh : commentHint vd with
        | none => rw [hh] at h; simp at h
        | some b =>
          rw [hh] at h
          cases b with
          | false =>
            simp only [Option.some.injEq] at h
            rw [← h]; exact hvd
          | true =>
            by_cases hcs : (_scrape_comments_from_page cpage mc).isEmpty
            · simp only [hcs, if_true, Option.some.injEq] at h
              rw [← h]; exact hvd
            · simp [hcs] at h
              rw [← h]; exact hvd

/-! ## Claim theorems -/

/-- Claim C1, counterexample: the scroll collector's uniqueness check compares
the node's raw href against already-stored (canonicalized) urls, so feeding
the same relative url `/video/1` in two rounds stores two items with the same
canonical url — the collection is not left unchanged. -/
theorem C1_counterexample :
    scrollLoop cFeedDup 5 25 0 0 [] = some [vRel, vRel] ∧
    vRel.url = "https://www.tiktok.com/video/1" ∧
    ¬ (([vRel, vRel].map VideoInfo.url).Nodup) :=
  ⟨by decide, by decide, by decide⟩

/-- Claim C1, amended: only the DOM-scroll collector deduplicates, by raw
href; when every rendered href is absolute (starts with `http`) the stored
url equals the href, so feeding the same url twice across scroll rounds
yields exactly one item and the collected urls are pairwise distinct.
(Relative hrefs are canonicalized only after the check — see the
counterexample — and the structured-payload parser appends without any
uniqueness check.) -/
theorem C1_scroll_dedup_absolute (feed : Feed) (maxVideos fuel : Nat)
    (res : List VideoInfo)
    (habs : ∀ r, ∀ n ∈ feed.nodesAt r, ∀ s, n.href = some s →
      startsWithChars "http".data s.data = true)
    (hrun : scrollLoop feed maxVideos fuel 0 0 [] = some res) :
    (res.map VideoInfo.url).Nodup :=
  scrollLoop_nodup feed maxVideos habs fuel 0 0 [] res (by simp) hrun

/-- Witness for C1: a stagnant feed rendering the same absolute-href node on
every round collects it exactly once, with pairwise-distinct urls. -/
theorem C1_scroll_dedup_absolute_witness :
    ([vAbs].map VideoInfo.url).Nodup ∧ scrollLoop wFeedAbs 5 25 0 0 [] = some [vAbs] := by
  constructor
  · apply C1_scroll_dedup_absolute wFeedAbs 5 25 [vAbs]
    · intro r n hn s hs
      simp only [wFeedAbs, List.mem_singleton] at hn
      subst hn
      simp only [nAbs, Option.some.injEq] at hs
      subst hs
      decide
    · decide
  · decide

/-- Claim C2, counterexample: with detail enrichment requested, a session
whose structured payload yields one item returns that item exactly as the
JSON extractor built it — the detail enrichment (which would succeed on this
item's detail page and produce a different record) is never applied to
JSON-extracted items. -/
theorem C2_counterexample :
    _extract_hashtag_data (some c2payload) c2feed 25 "tag" "now" 5 true c2dp false 0 c2cp
      = some c2result ∧
    c2result.videos = [Video.json c2jv] ∧
    scrape_video_details (c2dp c2jv.url) c2jv.url false 0 (c2cp c2jv.url) = some c2detail ∧
    Video.json c2jv ≠ Video.detailed c2detail :=
  ⟨rfl, rfl, rfl, fun h => Video.noConfusion h⟩

/-- Claim C2, amended: when the caller requests detail enrichment, the
enricher is applied sequentially to every item collected by the DOM-scroll
fallback — substituting the basic record for any item whose enrichment fails
— but it is applied only on that fallback path: items produced by the
structured-payload extractor are returned without enrichment. -/
theorem C2_enrichment_scroll_only (payload : Option PyVal) (feed : Feed)
    (fuel : Nat) (hashtag now : String) (maxVideos : Nat)
    (dp : String → Option PyVal) (sc : Bool) (mc : Nat)
    (cp : String → CommentPage) :
    ((_extract_from_json payload hashtag now).videos ≠ [] →
      _extract_hashtag_data payload feed fuel hashtag now maxVideos true dp sc mc cp =
        some (_extract_from_json payload hashtag now)) ∧
    (∀ collected, (_extract_from_json payload hashtag now).videos = [] →
      scrollLoop feed maxVideos fuel 0 0 [] = some collected →
      _extract_hashtag_data payload feed fuel hashtag now maxVideos true dp sc mc cp =
        some { _extract_from_json payload hashtag now with
               videos := (collected.map (enrichStep dp sc mc cp)).take maxVideos }) := by
  constructor
  · intro hne
    simp [_extract_hashtag_data, List.isEmpty_iff, hne]
  · intro collected hemp hloop
    simp [_extract_hashtag_data, hemp, _scrape_videos_by_scrolling, hloop]

/-- Witness for C2: on an empty-payload session the fallback runs, and with
an always-failing detail oracle the (empty) collection maps through
`enrichStep` unchanged. -/
theorem C2_enrichment_scroll_only_witness :
    _extract_hashtag_data Option.none c2feed 21 "t" "now" 5 true
        (fun _ => Option.none) false 0 c2cp =
      some { hashtag := "t", scraped_at := Option.none, hashtag_info := Option.none,
             videos := [], error := Option.none } :=
  (C2_enrichment_scroll_only Option.none c2feed 21 "t" "now" 5
      (fun _ => Option.none) false 0 c2cp).2 [] rfl (by decide)

/-- Claim C3: the comment harvester appends each extracted comment dict onto
the same Python list that holds the queried DOM element handles and returns
that mixed list: for a page with one comment node it returns a two-entry
list whose first entry is the raw node handle — contradicting the function's
own docstring ("Returns: List of comment dictionaries") and the spec's
contract. -/
theorem C3_mixed_return_bug :
    _scrape_comments_from_page c3page 20 =
      [CEntry.node c3node,
       CEntry.data { text := "hi", author := "Unknown", likes := 0, timestamp := "" }] := by
  decide

/-- Claim C4: when the detail-page parsing of an item's url returns `None`
(payload absent or malformed), the enrichment step keeps the basic item
exactly: it is neither dropped nor partially overwritten. -/
theorem C4_graceful_degradation (dp : String → Option PyVal) (sc : Bool)
    (mc : Nat) (cp : String → CommentPage) (v : VideoInfo)
    (h : ∀ data, dp v.url = some data →
      _parse_video_details_json data v.url = Option.none) :
    enrichStep dp sc mc cp v = Video.basic v := by
  cases hd : dp v.url with
  | none => simp [enrichStep, scrape_video_details, hd]
  | some data => simp [enrichStep, scrape_video_details, hd, h data hd]

/-- Witness for C4: a detail page whose payload is an empty dict parses to
`None` and the item survives unchanged. -/
theorem C4_graceful_degradation_witness :
    enrichStep (fun _ => some (PyVal.vdict [])) false 0 (fun _ => emptyCommentPage) vRel =
      Video.basic vRel :=
  C4_graceful_degradation (fun _ => some (PyVal.vdict [])) false 0
    (fun _ => emptyCommentPage) vRel
    (by intro data hd; injection hd with hd2; rw [← hd2]; rfl)

/-- Claim C5: for a simulated feed whose scrollable height stops growing from
round `N` on, the scroll loop returns within fuel `N + 21` (it exits as soon
as the target count is reached or 20 consecutive stagnant rounds occur, by
the loop guard), and the collection it returns holds at most `targetCount`
items. -/
theorem C5_scroll_termination (feed : Feed) (maxVideos N : Nat)
    (dp : String → Option PyVal) (cp : String → CommentPage)
    (hstop : ∀ r, N ≤ r → feed.hNew r = feed.hCur r) :
    (_scrape_videos_by_scrolling feed maxVideos (N + 21) false dp false 0 cp).isSome = true ∧
    ∀ vids, _scrape_videos_by_scrolling feed maxVideos (N + 21) false dp false 0 cp
        = some vids → vids.length ≤ maxVideos := by
  have h := scrollLoop_progress_isSome feed maxVideos N 0 0 []
    (fun r hr => hstop r (by omega))
  obtain ⟨l, hl⟩ := Option.isSome_iff_exists.mp h
  constructor
  · simp [_scrape_videos_by_scrolling, hl]
  · intro vids hv
    simp [_scrape_videos_by_scrolling, hl] at hv
    subst hv
    rw [List.length_take]
    omega

/-- Witness for C5: an immediately-stagnant empty feed terminates with an
empty collection. -/
theorem C5_scroll_termination_witness :
    (_scrape_videos_by_scrolling c2feed 5 21 false c2dp false 0 c2cp).isSome = true ∧
    ∀ vids, _scrape_videos_by_scrolling c2feed 5 21 false c2dp false 0 c2cp
        = some vids → vids.length ≤ 5 :=
  C5_scroll_termination c2feed 5 0 c2dp c2cp (fun _ _ => rfl)

/-- Claim C6: a session whose feed-page navigation times out or raises is
answered with a result dict carrying an `error` field and an empty `videos`
list — never an uncaught exception (the model is total on these paths). -/
theorem C6_session_error_result (s : Session) (hashtag : String)
    (maxVideos : Nat) (detailed sc : Bool) (mc fuel : Nat) :
    (s.nav = NavOutcome.timeout →
      scrape_hashtag s hashtag maxVideos detailed sc mc fuel =
        some { hashtag := pyLstripHash hashtag, scraped_at := Option.none,
               hashtag_info := Option.none, videos := [], error := some "timeout" }) ∧
    (∀ m, s.nav = NavOutcome.failure m →
      scrape_hashtag s hashtag maxVideos detailed sc mc fuel =
        some { hashtag := pyLstripHash hashtag, scraped_at := Option.none,
               hashtag_info := Option.none, videos := [], error := some m }) := by
  constructor
  · intro h; simp [scrape_hashtag, h]
  · intro m h; simp [scrape_hashtag, h]

/-- Witness for C6: a concrete timed-out session yields the
`error = 'timeout'` result with zero videos. -/
theorem C6_session_error_result_witness :
    scrape_hashtag c6session "#tag" 5 false false 0 25 =
      some { hashtag := "tag", scraped_at := Option.none, hashtag_info := Option.none,
             videos := [], error := some "timeout" } :=
  (C6_session_error_result c6session "#tag" 5 false false 0 25).1 rfl

/-- Claim C7, counterexample: with the refresh affordance absent (and
everything else equal — the same session with the button present returns the
payload's item), the session does not proceed to extraction: it returns the
`'timeout'` error result with zero items. -/
theorem C7_counterexample :
    scrape_hashtag c7sessionAbsent "t" 5 false false 0 25 =
      some { hashtag := "t", scraped_at := Option.none, hashtag_info := Option.none,
             videos := [], error := some "timeout" } ∧
    scrape_hashtag c7sessionPresent "t" 5 false false 0 25 =
      some { hashtag := "t", scraped_at := some "now", hashtag_info := Option.none,
             videos := [Video.json c2jv], error := Option.none } :=
  ⟨rfl, rfl⟩

/-- Claim C7, amended: if the manual content-refresh affordance is absent
from the loaded feed page, the attempted click raises the locator timeout,
which the session-level handler converts into the `error = 'timeout'` result
with zero items; the session does not proceed to extraction. -/
theorem C7_refresh_absent_aborts (s : Session) (hashtag : String)
    (maxVideos : Nat) (detailed sc : Bool) (mc fuel : Nat)
    (hok : s.nav = NavOutcome.ok) (habs : s.refreshButton = false) :
    scrape_hashtag s hashtag maxVideos detailed sc mc fuel =
      some { hashtag := pyLstripHash hashtag, scraped_at := Option.none,
             hashtag_info := Option.none, videos := [], error := some "timeout" } := by
  simp [scrape_hashtag, hok, habs]

/-- Witness for C7: the concrete refresh-less session aborts with the
timeout result. -/
theorem C7_refresh_absent_aborts_witness :
    scrape_hashtag c7sessionAbsent "t" 5 false false 0 25 =
      some { hashtag := pyLstripHash "t", scraped_at := Option.none,
             hashtag_info := Option.none, videos := [], error := some "timeout" } :=
  C7_refresh_absent_aborts c7sessionAbsent "t" 5 false false 0 25 rfl rfl

/-- Claim C9, counterexample: a scroll-extracted item is created with
provenance `'html_scroll'`, but after a successful detail enrichment the
final record carries `'video_page'` — the creation-time provenance is
replaced, not preserved. -/
theorem C9_counterexample :
    c9basic.scraped_via = "html_scroll" ∧
    enrichStep (fun _ => some c9payload) false 0 (fun _ => emptyCommentPage) c9basic =
      Video.detailed c9detail ∧
    c9detail.scraped_via = "video_page" ∧
    c9detail.scraped_via ≠ c9basic.scraped_via :=
  ⟨rfl, rfl, rfl, by decide⟩

/-- Claim C9, amended: every successfully enriched item's record carries the
detail parser's provenance `'video_page'` (replacing the creation-time
`'html_scroll'`); an item is never dropped by enrichment — it is either
replaced wholesale by the detail record or kept as the original basic
record. -/
theorem C9_enrichment_sets_detail_source (dp : String → Option PyVal)
    (sc : Bool) (mc : Nat) (cp : String → CommentPage) (v : VideoInfo) :
    (∀ d, enrichStep dp sc mc cp v = Video.detailed d →
      d.scraped_via = "video_page") ∧
    (enrichStep dp sc mc cp v = Video.basic v ∨
      ∃ d, enrichStep dp sc mc cp v = Video.detailed d) := by
  constructor
  · intro d hd
    cases hs : scrape_video_details (dp v.url) v.url sc mc (cp v.url) with
    | none =>
      rw [enrichStep, hs] at hd
      exact absurd hd (fun h => Video.noConfusion h)
    | some d0 =>
      rw [enrichStep, hs] at hd
      have hd0 : d0 = d := by injection hd
      exact hd0 ▸ scrape_video_details_via (dp v.url) v.url sc mc (cp v.url) d0 hs
  · rw [enrichStep]
    cases hs : scrape_video_details (dp v.url) v.url sc mc (cp v.url) with
    | none => exact Or.inl rfl
    | some d0 => exact Or.inr ⟨d0, rfl⟩

/-- Witness for C9: applying the amended theorem to the concrete successful
enrichment. -/
theorem C9_enrichment_sets_detail_source_witness :
    c9detail.scraped_via = "video_page" :=
  (C9_enrichment_sets_detail_source (fun _ => some c9payload) false 0
      (fun _ => emptyCommentPage) c9basic).1 c9detail rfl

/-- Claim C10: `_parse_count` totalizes every input to an integer but is not
guaranteed non-negative: `"-2K"` parses to `-2000`, and a comment node whose
like-count text is `"-2K"` gets that negative value as its `likes` field
unchecked. -/
theorem C10_negative_like_count :
    _parse_count "-2K" = -2000 ∧
    _extract_comment_data
        { textSel := some "nice", fullText := Option.none, usernameSel := Option.none,
          likeSel := some "-2K", timeSel := Option.none } =
      some { text := "nice", author := "Unknown", likes := -2000, timestamp := "" } :=
  ⟨by decide, by decide⟩

/-! ## Digit-string lemmas for the CountParser claim -/

/-- The numeric value of a digit sequence. -/
def digitsVal (ds : List (Fin 10)) : Nat :=
  ds.foldl (fun a i => 10 * a + i.val) 0

/-- The character rendering of a digit sequence. -/
def digitsStr (ds : List (Fin 10)) : List Char :=
  ds.map (fun i => Nat.digitChar i.val)

lemma digitChar_no_space : ∀ i : Fin 10, pyIsSpace (Nat.digitChar i.val) = false := by decide

lemma digitChar_run : ∀ i : Fin 10, isRunChar (Nat.digitChar i.val) = true := by decide

lemma digitChar_digit : ∀ i : Fin 10, (Nat.digitChar i.val).isDigit = true := by decide

lemma digitChar_upper : ∀ i : Fin 10, pyUpper (Nat.digitChar i.val) = Nat.digitChar i.val := by
  decide

lemma digitChar_ne_K : ∀ i : Fin 10, (Nat.digitChar i.val == 'K') = false := by decide

lemma digitChar_ne_M : ∀ i : Fin 10, (Nat.digitChar i.val == 'M') = false := by decide

lemma digitChar_ne_und : ∀ i : Fin 10, (Nat.digitChar i.val == '_') = false := by decide

lemma digitChar_ne_minus : ∀ i : Fin 10, (Nat.digitChar i.val == '-') = false := by decide

lemma digitChar_ne_plus : ∀ i : Fin 10, (Nat.digitChar i.val == '+') = false := by decide

lemma digitChar_val : ∀ i : Fin 10, (Nat.digitChar i.val).toNat - 48 = i.val := by decide

lemma digitsStr_no_space (ds : List (Fin 10)) :
    ∀ c ∈ digitsStr ds, pyIsSpace c = false := by
  intro c hc
  obtain ⟨i, _, rfl⟩ := List.mem_map.mp hc
  exact digitChar_no_space i

lemma digitsStr_all_run (ds : List (Fin 10)) :
    ∀ c ∈ digitsStr ds, isRunChar c = true := by
  intro c hc
  obtain ⟨i, _, rfl⟩ := List.mem_map.mp hc
  exact digitChar_run i

lemma takeWhile_all_of {p : Char → Bool} :
    ∀ l : List Char, (∀ c ∈ l, p c = true) → l.takeWhile p = l := by
  intro l
  induction l with
  | nil => intro _; rfl
  | cons c t ih =>
    intro h
    rw [List.takeWhile_cons, h c (List.mem_cons_self _ _)]
    simp [ih (fun x hx => h x (List.mem_cons_of_mem _ hx))]

lemma dropWhile_all_of {p : Char → Bool} :
    ∀ l : List Char, (∀ c ∈ l, p c = true) → l.dropWhile p = [] := by
  intro l
  induction l with
  | nil => intro _; rfl
  | cons c t ih =>
    intro h
    rw [List.dropWhile_cons, h c (List.mem_cons_self _ _)]
    simp [ih (fun x hx => h x (List.mem_cons_of_mem _ hx))]

lemma dropWhile_none_of {p : Char → Bool} :
    ∀ l : List Char, (∀ c ∈ l, p c = false) → l.dropWhile p = l := by
  intro l
  induction l with
  | nil => intro _; rfl
  | cons c t _ =>
    intro h
    rw [List.dropWhile_cons, h c (List.mem_cons_self _ _)]
    simp

lemma stripChars_of_no_space (cs : List Char)
    (h : ∀ c ∈ cs, pyIsSpace c = false) : stripChars cs = cs := by
  unfold stripChars
  rw [dropWhile_none_of cs h,
    dropWhile_none_of cs.reverse (fun c hc => h c (List.mem_reverse.mp hc)),
    List.reverse_reverse]

lemma map_fixed_of {f : Char → Char} :
    ∀ l : List Char, (∀ c ∈ l, f c = c) → l.map f = l := by
  intro l
  induction l with
  | nil => intro _; rfl
  | cons c t ih =>
    intro h
    rw [List.map_cons, h c (List.mem_cons_self _ _),
      ih (fun x hx => h x (List.mem_cons_of_mem _ hx))]

lemma map_pyUpper_digitsStr (ds : List (Fin 10)) :
    (digitsStr ds).map pyUpper = digitsStr ds := by
  apply map_fixed_of
  intro c hc
  obtain ⟨i, _, rfl⟩ := List.mem_map.mp hc
  exact digitChar_upper i

lemma underscoreTail_digitsStr : ∀ ds : List (Fin 10),
    underscoreTail (digitsStr ds) = true := by
  intro ds
  induction ds with
  | nil => rfl
  | cons i rest ih =>
    rw [show digitsStr (i :: rest) = Nat.digitChar i.val :: digitsStr rest from rfl]
    rw [underscoreTail.eq_def]
    simp [digitChar_ne_und i, digitChar_digit i, ih]

lemma underscoreRunOk_digitsStr (i : Fin 10) (rest : List (Fin 10)) :
    underscoreRunOk (digitsStr (i :: rest)) = true := by
  rw [show digitsStr (i :: rest) = Nat.digitChar i.val :: digitsStr rest from rfl]
  simp [underscoreRunOk, digitChar_digit i, underscoreTail_digitsStr rest]

lemma stripUnderscores_digitsStr (ds : List (Fin 10)) :
    stripUnderscores (digitsStr ds) = digitsStr ds := by
  unfold stripUnderscores
  rw [List.filter_eq_self]
  intro c hc
  obtain ⟨i, _, rfl⟩ := List.mem_map.mp hc
  simp [digitChar_ne_und i]

lemma digitsToNat_digitsStr_gen : ∀ (ds : List (Fin 10)) (a : Nat),
    (digitsStr ds).foldl (fun x c => 10 * x + (c.toNat - 48)) a =
      ds.foldl (fun x i => 10 * x + i.val) a := by
  intro ds
  induction ds with
  | nil => intro _; rfl
  | cons i rest ih =>
    intro a
    simp only [digitsStr, List.map_cons, List.foldl_cons] at ih ⊢
    rw [digitChar_val i]
    exact ih _

lemma digitsToNat_digitsStr (ds : List (Fin 10)) :
    digitsToNat (digitsStr ds) = digitsVal ds :=
  digitsToNat_digitsStr_gen ds 0

lemma splitSign_digitsStr (i : Fin 10) (rest : List Char) :
    splitSign (Nat.digitChar i.val :: rest) = (1, Nat.digitChar i.val :: rest) := by
  simp [splitSign, digitChar_ne_minus i, digitChar_ne_plus i]

lemma pyFloatMag_digitsStr (i : Fin 10) (rest : List (Fin 10)) :
    pyFloatMag (digitsStr (i :: rest)) =
      some { num := (digitsVal (i :: rest) : Int), den10 := 0 } := by
  have hall := digitsStr_all_run (i :: rest)
  have htk := takeWhile_all_of (digitsStr (i :: rest)) hall
  have hdr := dropWhile_all_of (digitsStr (i :: rest)) hall
  have hne : (digitsStr (i :: rest)).isEmpty = false := by
    simp [digitsStr]
  simp only [pyFloatMag, htk, hdr, hne, underscoreRunOk_digitsStr i rest,
    Bool.not_true, Bool.and_false, Bool.false_eq_true, if_false, parseExpPart,
    Option.map_some', stripUnderscores_digitsStr]
  simp [decParts, digitsToNat_digitsStr]

/-! ### Exactness of the binary64 model on small integers

Rounding an integer below `2 ^ 53` to binary64 is exact, multiplying while
the product stays below `2 ^ 53` is exact, and `int()` recovers the product
— the spine of the in-range CountParser clauses. -/

lemma nbitsAux_zero (f : Nat) : nbitsAux f 0 = 0 := by cases f <;> rfl

lemma nbitsAux_spec : ∀ (f n : Nat), n ≤ f → 1 ≤ n →
    2 ^ (nbitsAux f n - 1) ≤ n ∧ n < 2 ^ nbitsAux f n := by
  intro f
  induction f with
  | zero => intro n h1 h2; omega
  | succ f ih =>
    intro n hle h1
    rw [nbitsAux, if_neg (by omega : ¬ n = 0)]
    by_cases h2 : n = 1
    · subst h2
      norm_num [nbitsAux_zero]
    · have hn2 : 2 ≤ n := by omega
      have hdiv1 : 1 ≤ n / 2 := by omega
      have hdivle : n / 2 ≤ f := by omega
      obtain ⟨hl, hr⟩ := ih (n / 2) hdivle hdiv1
      have hk1 : 1 ≤ nbitsAux f (n / 2) := by
        by_contra hc
        push_neg at hc
        interval_cases h : nbitsAux f (n / 2)
        · norm_num at hr
          omega
      constructor
      · have hpow : 2 ^ (nbitsAux f (n / 2)) = 2 * 2 ^ (nbitsAux f (n / 2) - 1) := by
          rw [← pow_succ']
          congr 1
          omega
        have hgoal : nbitsAux f (n / 2) + 1 - 1 = nbitsAux f (n / 2) := by omega
        rw [hgoal]
        omega
      · have hpow : 2 ^ (nbitsAux f (n / 2) + 1) = 2 * 2 ^ (nbitsAux f (n / 2)) := by
          rw [pow_succ]
          ring
        omega

lemma nbits_spec (n : Nat) (h : 1 ≤ n) :
    2 ^ (nbits n - 1) ≤ n ∧ n < 2 ^ nbits n :=
  nbitsAux_spec n n (Nat.le_refl n) h

lemma nbits_pos (n : Nat) (h : 1 ≤ n) : 1 ≤ nbits n := by
  have h2 := (nbits_spec n h).2
  by_contra hc
  push_neg at hc
  interval_cases hh : nbits n
  · norm_num at h2
    omega

lemma nbits_le_of_lt (n k : Nat) (h1 : 1 ≤ n) (h : n < 2 ^ k) : nbits n ≤ k := by
  by_contra hc
  push_neg at hc
  have h2 := (nbits_spec n h1).1
  have h3 : (2:Nat) ^ k ≤ 2 ^ (nbits n - 1) :=
    Nat.pow_le_pow_right (by norm_num) (by omega)
  omega

lemma nbits_eq (n k : Nat) (hk : 1 ≤ k) (hl : 2 ^ (k - 1) ≤ n) (hr : n < 2 ^ k) :
    nbits n = k := by
  have h1 : 1 ≤ n := le_trans (Nat.one_le_two_pow) hl
  have hle : nbits n ≤ k := nbits_le_of_lt n k h1 hr
  have hge : k ≤ nbits n := by
    by_contra hc
    push_neg at hc
    have h2 := (nbits_spec n h1).2
    have h3 : (2:Nat) ^ (nbits n) ≤ 2 ^ (k - 1) :=
      Nat.pow_le_pow_right (by norm_num) (by omega)
    omega
  omega

lemma nbits_mul_pow2 (w s : Nat) (hw : 1 ≤ w) : nbits (w * 2 ^ s) = nbits w + s := by
  obtain ⟨hl, hr⟩ := nbits_spec w hw
  have h1 := nbits_pos w hw
  apply nbits_eq
  · omega
  · have h2 : 2 ^ (nbits w + s - 1) = 2 ^ (nbits w - 1) * 2 ^ s := by
      rw [← pow_add]
      congr 1
      omega
    rw [h2]
    exact Nat.mul_le_mul_right _ hl
  · have h2 : 2 ^ (nbits w + s) = 2 ^ (nbits w) * 2 ^ s := by rw [pow_add]
    rw [h2]
    have hp : 0 < 2 ^ s := Nat.pos_pow_of_pos s (by norm_num)
    exact Nat.mul_lt_mul_of_lt_of_le hr (Nat.le_refl _) hp

lemma nbits_one : nbits 1 = 1 := rfl

lemma nbits_pow2 (s : Nat) : nbits (2 ^ s) = s + 1 := by
  have h := nbits_mul_pow2 1 s (Nat.le_refl 1)
  rw [one_mul, nbits_one] at h
  omega

lemma roundNE_mul (w q : Nat) (hq : 1 ≤ q) : roundNE (w * q) q = w := by
  unfold roundNE
  have h1 : w * q % q = 0 := Nat.mul_mod_left w q
  have h2 : w * q / q = w := Nat.mul_div_cancel w (by omega)
  rw [h1, h2]
  simp [hq]
  omega

lemma chooseE_pow2 (w s : Nat) (hw : 1 ≤ w) :
    chooseE (w * 2 ^ s) (2 ^ s) = (nbits w : Int) - 1 := by
  have h1 := nbits_pos w hw
  have hspec := nbits_spec w hw
  have hna : nbits (w * 2 ^ s) = nbits w + s := nbits_mul_pow2 w s hw
  have hnb : nbits (2 ^ s) = s + 1 := nbits_pow2 s
  have ht : ((nbits (w * 2 ^ s) : Nat) : Int) - ((nbits (2 ^ s) : Nat) : Int) =
      (nbits w : Int) - 1 := by
    rw [hna, hnb]
    push_cast
    ring
  have htnn : (0:Int) ≤ (nbits w : Int) - 1 := by omega
  have htn : ((nbits w : Int) - 1).toNat = nbits w - 1 := by omega
  have hle : 2 ^ s * 2 ^ (nbits w - 1) ≤ w * 2 ^ s := by
    calc 2 ^ s * 2 ^ (nbits w - 1) = 2 ^ (nbits w - 1) * 2 ^ s := Nat.mul_comm _ _
    _ ≤ w * 2 ^ s := Nat.mul_le_mul_right _ hspec.1
  have hg : ratGE (w * 2 ^ s) (2 ^ s)
      (((nbits (w * 2 ^ s) : Nat) : Int) - ((nbits (2 ^ s) : Nat) : Int)) = true := by
    rw [ht]
    unfold ratGE
    rw [if_pos htnn, htn]
    exact decide_eq_true hle
  unfold chooseE
  rw [hg]
  simp only [if_true]
  exact ht

lemma roundPosToB64_exact (w s : Nat) (hw : 1 ≤ w) (h53 : w < 2 ^ 53) :
    roundPosToB64 (w * 2 ^ s) (2 ^ s) =
      PyFloat.finite ((w * 2 ^ (53 - nbits w) : Nat) : Int) ((nbits w : Int) - 53) := by
  have h1 := nbits_pos w hw
  have h53n : nbits w ≤ 53 := nbits_le_of_lt w 53 hw h53
  obtain ⟨hl, hr⟩ := nbits_spec w hw
  have hE := chooseE_pow2 w s hw
  simp only [roundPosToB64, hE]
  rw [if_neg (by omega : ¬ ((nbits w : Int) - 1 < -1022))]
  have hsh : (0:Int) ≤ 52 - ((nbits w : Int) - 1) := by omega
  rw [if_pos hsh, if_pos hsh]
  have htn : ((52:Int) - ((nbits w : Int) - 1)).toNat = 53 - nbits w := by omega
  rw [htn]
  have hp : w * 2 ^ s * 2 ^ (53 - nbits w) = (w * 2 ^ (53 - nbits w)) * 2 ^ s := by ring
  rw [hp, roundNE_mul _ _ (Nat.one_le_two_pow)]
  have hmlt : w * 2 ^ (53 - nbits w) < 2 ^ 53 := by
    have hstep : w * 2 ^ (53 - nbits w) < 2 ^ (nbits w) * 2 ^ (53 - nbits w) :=
      Nat.mul_lt_mul_of_lt_of_le hr (Nat.le_refl _) (Nat.pos_pow_of_pos _ (by norm_num))
    have hcomb : 2 ^ (nbits w) * 2 ^ (53 - nbits w) = 2 ^ 53 := by
      rw [← pow_add]
      congr 1
      omega
    omega
  rw [if_neg (by omega : ¬ (w * 2 ^ (53 - nbits w) = 2 ^ 53))]
  rw [if_neg (by omega : ¬ ((1023:Int) < (nbits w : Int) - 1))]
  congr 1
  omega

lemma b64OfDec_nat (w : Nat) (hw : 1 ≤ w) (h53 : w < 2 ^ 53) :
    b64OfDec { num := (w : Int), den10 := 0 } =
      PyFloat.finite ((w * 2 ^ (53 - nbits w) : Nat) : Int) ((nbits w : Int) - 53) := by
  simp only [b64OfDec]
  rw [if_neg (by omega : ¬ ((w : Int) ≤ 0))]
  have h2 : ((w : Int)).toNat = w := by omega
  have h3 : (10:Nat) ^ (0:Nat) = 2 ^ (0:Nat) := rfl
  rw [h2, h3, show w = w * 2 ^ (0:Nat) by norm_num]
  rw [roundPosToB64_exact w 0 hw h53]
  norm_num

lemma floatMulNat_exact (w s k : Nat) (hw : 1 ≤ w) (hk : 1 ≤ k) (h53 : w * k < 2 ^ 53) :
    floatMulNat (PyFloat.finite ((w * 2 ^ s : Nat) : Int) (-(s : Int))) k =
      PyFloat.finite ((w * k * 2 ^ (53 - nbits (w * k)) : Nat) : Int)
        ((nbits (w * k) : Int) - 53) := by
  have hws : 1 ≤ w * 2 ^ s := Nat.one_le_iff_ne_zero.mpr (by positivity)
  have hwk : 1 ≤ w * k := Nat.one_le_iff_ne_zero.mpr (by positivity)
  simp only [floatMulNat]
  rw [if_neg (by omega : ¬ ((w * 2 ^ s : Nat) : Int) = 0)]
  rw [if_pos (by omega : (0:Int) < ((w * 2 ^ s : Nat) : Int))]
  have htn : (((w * 2 ^ s : Nat) : Int)).toNat = w * 2 ^ s := by omega
  rw [htn]
  simp only [roundScaled]
  rcases Nat.eq_zero_or_pos s with hs0 | hs1
  · subst hs0
    rw [if_pos (by norm_num : (0:Int) ≤ -((0:Nat) : Int))]
    have he : (-((0:Nat) : Int)).toNat = 0 := by norm_num
    rw [he]
    rw [show w * 2 ^ (0:Nat) * k * 2 ^ (0:Nat) = (w * k) * 2 ^ (0:Nat) by ring]
    rw [show (1:Nat) = 2 ^ (0:Nat) by norm_num]
    exact roundPosToB64_exact (w * k) 0 hwk h53
  · rw [if_neg (by omega : ¬ ((0:Int) ≤ -((s:Nat) : Int)))]
    have he : (-(-((s:Nat) : Int))).toNat = s := by omega
    rw [he]
    rw [show w * 2 ^ s * k = (w * k) * 2 ^ s by ring]
    exact roundPosToB64_exact (w * k) s hwk h53

lemma pyIntOfFloat_exact (u : Nat) (hu : 1 ≤ u) (h53 : u < 2 ^ 53) :
    pyIntOfFloat (PyFloat.finite ((u * 2 ^ (53 - nbits u) : Nat) : Int)
      ((nbits u : Int) - 53)) = some (u : Int) := by
  have h1 := nbits_pos u hu
  have hle : nbits u ≤ 53 := nbits_le_of_lt u 53 hu h53
  simp only [pyIntOfFloat]
  by_cases he : nbits u = 53
  · rw [if_pos (by omega : (0:Int) ≤ (nbits u : Int) - 53)]
    rw [he]
    norm_num
  · rw [if_neg (by omega : ¬ ((0:Int) ≤ (nbits u : Int) - 53))]
    rw [if_pos (by positivity : (0:Int) ≤ ((u * 2 ^ (53 - nbits u) : Nat) : Int))]
    have h2 : (((u * 2 ^ (53 - nbits u) : Nat) : Int)).toNat = u * 2 ^ (53 - nbits u) := by
      omega
    have h3 : (-(((nbits u : Nat) : Int) - 53)).toNat = 53 - nbits u := by omega
    rw [h2, h3, Nat.mul_div_cancel _ (Nat.pos_pow_of_pos _ (by norm_num))]

lemma float_chain_exact (w k : Nat) (hk : 1 ≤ k) (hb : w * k < 2 ^ 53) :
    pyIntOfFloat (floatMulNat (b64OfDec { num := (w : Int), den10 := 0 }) k) =
      some ((w : Int) * (k : Int)) := by
  rcases Nat.eq_zero_or_pos w with h0 | hw
  · subst h0
    norm_num [b64OfDec, floatMulNat, pyIntOfFloat]
  · have h53 : w < 2 ^ 53 := by
      have : w ≤ w * k := Nat.le_mul_of_pos_right w (by omega)
      omega
    rw [b64OfDec_nat w hw h53]
    have hsh : ((nbits w : Int) - 53) = -(((53 - nbits w : Nat) : Int)) := by
      have := nbits_le_of_lt w 53 hw h53
      omega
    rw [hsh, floatMulNat_exact w (53 - nbits w) k hw hk hb]
    rw [pyIntOfFloat_exact (w * k) (Nat.one_le_iff_ne_zero.mpr (by positivity)) hb]
    congr 1

lemma pyFloat_digitsStr (i : Fin 10) (rest : List (Fin 10)) :
    pyFloat (digitsStr (i :: rest)) =
      some (b64OfDec { num := (digitsVal (i :: rest) : Int), den10 := 0 }) := by
  have hs : splitSign (digitsStr (i :: rest)) = (1, digitsStr (i :: rest)) := by
    simp only [digitsStr, List.map_cons]
    exact splitSign_digitsStr i _
  simp [pyFloat, hs, pyFloatMag_digitsStr i rest]

lemma pyInt_digitsStr (i : Fin 10) (rest : List (Fin 10)) :
    pyInt (digitsStr (i :: rest)) = some (digitsVal (i :: rest) : Int) := by
  have hs : splitSign (digitsStr (i :: rest)) = (1, digitsStr (i :: rest)) := by
    simp only [digitsStr, List.map_cons]
    exact splitSign_digitsStr i _
  have hne : (digitsStr (i :: rest)).isEmpty = false := by
    simp [digitsStr]
  have hall : (digitsStr (i :: rest)).all isRunChar = true :=
    List.all_eq_true.mpr (digitsStr_all_run (i :: rest))
  simp only [pyInt, hs, hne, hall, underscoreRunOk_digitsStr i rest,
    stripUnderscores_digitsStr, digitsToNat_digitsStr, Bool.not_false,
    Bool.and_true, Bool.true_and, Bool.and_self, if_true, one_mul]

lemma hasChar_false_of (cs : List Char) (k : Char)
    (h : ∀ c ∈ cs, (c == k) = false) : hasChar cs k = false := by
  induction cs with
  | nil => rfl
  | cons c t ih =>
    simp only [hasChar, List.any_cons, h c (List.mem_cons_self _ _), Bool.false_or]
    exact ih (fun x hx => h x (List.mem_cons_of_mem _ hx))

lemma hasChar_digitsStr (ds : List (Fin 10)) (k : Char)
    (h : ∀ i : Fin 10, (Nat.digitChar i.val == k) = false) :
    hasChar (digitsStr ds) k = false := by
  apply hasChar_false_of
  intro c hc
  obtain ⟨i, _, rfl⟩ := List.mem_map.mp hc
  exact h i

lemma filter_ne_digitsStr (ds : List (Fin 10)) (k : Char)
    (h : ∀ i : Fin 10, (Nat.digitChar i.val == k) = false) :
    (digitsStr ds).filter (fun c => !(c == k)) = digitsStr ds := by
  rw [List.filter_eq_self]
  intro c hc
  obtain ⟨i, _, rfl⟩ := List.mem_map.mp hc
  simp [h i]

lemma stripChars_space_wrap (i : Fin 10) (rest : List (Fin 10)) :
    stripChars (' ' :: (digitsStr (i :: rest) ++ [' '])) = digitsStr (i :: rest) := by
  unfold stripChars
  have h1 : (' ' :: (digitsStr (i :: rest) ++ [' '])).dropWhile pyIsSpace =
      (digitsStr (i :: rest) ++ [' ']).dropWhile pyIsSpace := by
    rw [List.dropWhile_cons]
    simp [pyIsSpace]
  have h2 : (digitsStr (i :: rest) ++ [' ']).dropWhile pyIsSpace =
      digitsStr (i :: rest) ++ [' '] := by
    rw [show digitsStr (i :: rest) ++ [' '] =
        Nat.digitChar i.val :: (digitsStr rest ++ [' ']) from rfl]
    rw [List.dropWhile_cons, digitChar_no_space i]
    simp
  rw [h1, h2, List.reverse_append]
  rw [show [' '].reverse ++ (digitsStr (i :: rest)).reverse =
      ' ' :: (digitsStr (i :: rest)).reverse from rfl]
  rw [List.dropWhile_cons]
  simp only [pyIsSpace]
  rw [dropWhile_none_of (digitsStr (i :: rest)).reverse
    (fun c hc => digitsStr_no_space (i :: rest) c (List.mem_reverse.mp hc))]
  simp [List.reverse_reverse]

lemma parse_count_K_digits (s : String) (i : Fin 10) (rest : List (Fin 10))
    (hclean : (stripChars s.data).map pyUpper = digitsStr (i :: rest) ++ ['K'])
    (hb : digitsVal (i :: rest) * 1000 < 2 ^ 53) :
    _parse_count s = (digitsVal (i :: rest) : Int) * 1000 := by
  have hK : hasChar (digitsStr (i :: rest) ++ ['K']) 'K' = true := by
    simp [hasChar]
  have hfil : (digitsStr (i :: rest) ++ ['K']).filter (fun c => !(c == 'K')) =
      digitsStr (i :: rest) := by
    rw [List.filter_append, filter_ne_digitsStr (i :: rest) 'K' digitChar_ne_K]
    simp
  simp only [_parse_count, hclean, hK, if_true, hfil, pyFloat_digitsStr i rest,
    float_chain_exact (digitsVal (i :: rest)) 1000 (by norm_num) hb]
  norm_num

lemma parse_count_M_digits (s : String) (i : Fin 10) (rest : List (Fin 10))
    (hclean : (stripChars s.data).map pyUpper = digitsStr (i :: rest) ++ ['M'])
    (hb : digitsVal (i :: rest) * 1000000 < 2 ^ 53) :
    _parse_count s = (digitsVal (i :: rest) : Int) * 1000000 := by
  have hK : hasChar (digitsStr (i :: rest) ++ ['M']) 'K' = false := by
    have hd := hasChar_digitsStr (i :: rest) 'K' digitChar_ne_K
    simp [hasChar] at hd ⊢
    exact fun c hc => hd c hc
  have hM : hasChar (digitsStr (i :: rest) ++ ['M']) 'M' = true := by
    simp [hasChar]
  have hfil : (digitsStr (i :: rest) ++ ['M']).filter (fun c => !(c == 'M')) =
      digitsStr (i :: rest) := by
    rw [List.filter_append, filter_ne_digitsStr (i :: rest) 'M' digitChar_ne_M]
    simp
  simp only [_parse_count, hclean, hK, hM, Bool.false_eq_true, if_false, if_true,
    hfil, pyFloat_digitsStr i rest,
    float_chain_exact (digitsVal (i :: rest)) 1000000 (by norm_num) hb]
  norm_num

lemma parse_count_int_digits (s : String) (i : Fin 10) (rest : List (Fin 10))
    (hclean : (stripChars s.data).map pyUpper = digitsStr (i :: rest)) :
    _parse_count s = (digitsVal (i :: rest) : Int) := by
  have hK : hasChar (digitsStr (i :: rest)) 'K' = false :=
    hasChar_digitsStr (i :: rest) 'K' digitChar_ne_K
  have hM : hasChar (digitsStr (i :: rest)) 'M' = false :=
    hasChar_digitsStr (i :: rest) 'M' digitChar_ne_M
  simp only [_parse_count, hclean, hK, hM, Bool.false_eq_true, if_false,
    pyInt_digitsStr i rest]

lemma clean_digits_char (ds : List (Fin 10)) (c : Char) (hsp : pyIsSpace c = false) :
    (stripChars (digitsStr ds ++ [c])).map pyUpper = digitsStr ds ++ [pyUpper c] := by
  rw [stripChars_of_no_space]
  · rw [List.map_append, map_pyUpper_digitsStr]
    rfl
  · intro x hx
    rcases List.mem_append.mp hx with h | h
    · exact digitsStr_no_space ds x h
    · rw [List.mem_singleton.mp h]
      exact hsp

/-- Claim C8, counterexample: the float path rounds the numeric prefix to an
IEEE-754 double before multiplying, so for the 16-digit prefix
`9999999999999999` (which rounds to the double `1e16`) the program returns
`10000000000000000000`, not the prefix times 1000. -/
theorem C8_counterexample :
    _parse_count "9999999999999999K" = 10000000000000000000 ∧
    (10000000000000000000 : Int) ≠ 9999999999999999 * 1000 :=
  ⟨by decide, by decide⟩

/-- Claim C8, amended: `_parse_count` is case-insensitive, strips surrounding
whitespace, parses plain integers of any size, and returns 0 (never raising)
on malformed input; on `K`/`k` it multiplies the numeric prefix by 1000 and
on `M`/`m` by 1000000 exactly whenever prefix times multiplier stays below
`2 ^ 53` (beyond that the prefix's binary64 rounding shows through, and an
overflow to infinity makes `int()` raise, caught as 0 — see the
counterexample); the spec's five examples hold. -/
theorem C8_parse_count_spec (ds : List (Fin 10)) (hne : ds ≠ []) :
    (_parse_count (String.mk (digitsStr ds)) = (digitsVal ds : Int) ∧
     _parse_count (String.mk (' ' :: (digitsStr ds ++ [' ']))) = (digitsVal ds : Int)) ∧
    (digitsVal ds * 1000 < 2 ^ 53 →
      _parse_count (String.mk (digitsStr ds ++ ['K'])) = (digitsVal ds : Int) * 1000 ∧
      _parse_count (String.mk (digitsStr ds ++ ['k'])) = (digitsVal ds : Int) * 1000) ∧
    (digitsVal ds * 1000000 < 2 ^ 53 →
      _parse_count (String.mk (digitsStr ds ++ ['M'])) = (digitsVal ds : Int) * 1000000 ∧
      _parse_count (String.mk (digitsStr ds ++ ['m'])) = (digitsVal ds : Int) * 1000000) ∧
    (_parse_count "1.2K" = 1200 ∧ _parse_count "3M" = 3000000 ∧
     _parse_count "42" = 42 ∧ _parse_count "" = 0 ∧ _parse_count "abc" = 0) := by
  obtain ⟨i, rest, rfl⟩ : ∃ i rest, ds = i :: rest := by
    cases ds with
    | nil => exact absurd rfl hne
    | cons i rest => exact ⟨i, rest, rfl⟩
  refine ⟨⟨?_, ?_⟩, fun hbK => ⟨?_, ?_⟩, fun hbM => ⟨?_, ?_⟩,
    by decide, by decide, by decide, by decide, by decide⟩
  · apply parse_count_int_digits
    rw [show (String.mk (digitsStr (i :: rest))).data = digitsStr (i :: rest) from rfl,
      stripChars_of_no_space _ (digitsStr_no_space _)]
    exact map_pyUpper_digitsStr _
  · apply parse_count_int_digits
    rw [show (String.mk (' ' :: (digitsStr (i :: rest) ++ [' ']))).data =
        ' ' :: (digitsStr (i :: rest) ++ [' ']) from rfl,
      stripChars_space_wrap i rest]
    exact map_pyUpper_digitsStr _
  · refine parse_count_K_digits _ i rest ?_ hbK
    rw [show (String.mk (digitsStr (i :: rest) ++ ['K'])).data =
        digitsStr (i :: rest) ++ ['K'] from rfl,
      clean_digits_char (i :: rest) 'K' (by decide),
      show pyUpper 'K' = 'K' from by decide]
  · refine parse_count_K_digits _ i rest ?_ hbK
    rw [show (String.mk (digitsStr (i :: rest) ++ ['k'])).data =
        digitsStr (i :: rest) ++ ['k'] from rfl,
      clean_digits_char (i :: rest) 'k' (by decide),
      show pyUpper 'k' = 'K' from by decide]
  · refine parse_count_M_digits _ i rest ?_ hbM
    rw [show (String.mk (digitsStr (i :: rest) ++ ['M'])).data =
        digitsStr (i :: rest) ++ ['M'] from rfl,
      clean_digits_char (i :: rest) 'M' (by decide),
      show pyUpper 'M' = 'M' from by decide]
  · refine parse_count_M_digits _ i rest ?_ hbM
    rw [show (String.mk (digitsStr (i :: rest) ++ ['m'])).data =
        digitsStr (i :: rest) ++ ['m'] from rfl,
      clean_digits_char (i :: rest) 'm' (by decide),
      show pyUpper 'm' = 'M' from by decide]

/-- Witness for C8: the digit string `42` — `parse("42K") = 42000` (the
in-range bound holds) and `parse("42") = 42`. -/
theorem C8_parse_count_spec_witness :
    ([(4 : Fin 10), 2] ≠ ([] : List (Fin 10))) ∧
    digitsVal [4, 2] * 1000 < 2 ^ 53 ∧
    _parse_count (String.mk (digitsStr [4, 2] ++ ['K'])) = (digitsVal [4, 2] : Int) * 1000 ∧
    _parse_count (String.mk (digitsStr [4, 2])) = (digitsVal [4, 2] : Int) := by
  refine ⟨by decide, by decide, ?_, ?_⟩
  · exact ((C8_parse_count_spec [4, 2] (by decide)).2.1 (by decide)).1
  · exact (C8_parse_count_spec [4, 2] (by decide)).1.1
